import Mathlib

/-!
# Deployment builder of `sous` (package `sous`, file `deployment_builder.go`)

A shallow embedding of the deployment builder: Go pointers are `Option`,
a nil-pointer dereference is the `panic` outcome, methods on
`*deploymentBuilder` pass the builder explicitly, and the two remote clients
are functions of their arguments whose invocations are recorded in a trace.
-/

namespace Sous

/-! ## Go values -/

/-- Go `map[string]string` as an association list (a nil map reads as the empty list). -/
abbrev StrMap := List (String × String)

/-- Go `v, present := m[k]`. -/
def mapGet (m : StrMap) (k : String) : Option String := List.lookup k m

/-- Go `m[k] = v`. -/
def mapSet (m : StrMap) (k v : String) : StrMap :=
  (k, v) :: m.filter (fun p => p.1 != k)

/-- The keys of a map. -/
def mapKeys (m : StrMap) : List String := m.map Prod.fst

/-- A Go `float64`: a finite value `(-1)^neg * mant * 2^exp`, an infinity or NaN. -/
inductive Float64 where
  | finite (neg : Bool) (mant : Nat) (exp : Int)
  | inf (neg : Bool)
  | nan
  deriving DecidableEq

/-- Quotient `n / d` rounded to the nearest natural number, ties to even. -/
def roundHalfEven (n d : Nat) : Nat :=
  let q := n / d
  let r := n % d
  if 2 * r < d then q
  else if d < 2 * r then q + 1
  else if q % 2 = 0 then q else q + 1

/-- Left-pads a decimal string with zeros to six characters. -/
def padLeft6 (s : String) : String :=
  String.mk (List.replicate (6 - s.length) '0') ++ s

/-- Go `fmt.Sprintf("%f", x)`: fixed notation with exactly six digits after the point. -/
def sprintfF : Float64 → String
  | .nan => "NaN"
  | .inf neg => if neg then "-Inf" else "+Inf"
  | .finite neg mant exp =>
    let scaled : Nat :=
      match exp with
      | Int.ofNat e => mant * 2 ^ e * 10 ^ 6
      | Int.negSucc k => roundHalfEven (mant * 10 ^ 6) (2 ^ (k + 1))
    (if neg then "-" else "") ++ toString (scaled / 10 ^ 6) ++ "." ++
      padLeft6 (toString (scaled % 10 ^ 6))

/-- Go `fmt.Sprintf("%d", n)`. -/
def sprintfD (n : Int) : String := toString n

/-- Go `fmt.Sprintf("%v", xs)` for a `[]string`. -/
def sprintfV (xs : List String) : String := "[" ++ " ".intercalate xs ++ "]"

/-! ## Scheduler DTOs (package `dtos`) -/

structure SingularityDeployMarker where
  RequestId : String
  DeployId : String
  deriving DecidableEq

structure SingularityRequestDeployState where
  PendingDeploy : Option SingularityDeployMarker
  ActiveDeploy : Option SingularityDeployMarker
  deriving DecidableEq

structure SingularityRequest where
  Id : String
  Instances : Int
  Owners : Option (Finset String)
  RequestType : String
  deriving DecidableEq

structure SingularityRequestParent where
  Request : Option SingularityRequest
  RequestDeployState : Option SingularityRequestDeployState
  deriving DecidableEq

structure SingularityDockerInfo where
  Image : String
  deriving DecidableEq

structure SingularityContainerInfo where
  Type_ : String
  Docker : Option SingularityDockerInfo
  deriving DecidableEq

structure SingularityResources where
  Cpus : Float64
  MemoryMb : Float64
  NumPorts : Int
  deriving DecidableEq

structure SingularityDeploy where
  ContainerInfo : Option SingularityContainerInfo
  Env : Option StrMap
  Resources : Option SingularityResources
  deriving DecidableEq

structure SingularityDeployHistory where
  Deploy : Option SingularityDeploy
  deriving DecidableEq

/-- The constant `dtos.SingularityContainerInfoSingularityContainerTypeDOCKER`. -/
def SingularityContainerTypeDOCKER : String := "DOCKER"

def SingularityRequestRequestTypeSERVICE : String := "SERVICE"
def SingularityRequestRequestTypeWORKER : String := "WORKER"
def SingularityRequestRequestTypeON_DEMAND : String := "ON_DEMAND"
def SingularityRequestRequestTypeSCHEDULED : String := "SCHEDULED"
def SingularityRequestRequestTypeRUN_ONCE : String := "RUN_ONCE"

/-! ## Data model of package `sous` -/

/-- The type `semv.Version`. -/
structure Version where
  Major : Int
  Minor : Int
  Patch : Int
  Pre : String
  Meta : String
  deriving DecidableEq

structure SourceVersion where
  RepoURL : String
  Version : Version
  RepoOffset : String
  deriving DecidableEq

/-- The zero value `SourceVersion{}`. -/
def SourceVersion.zero : SourceVersion := ⟨"", ⟨0, 0, 0, "", ""⟩, ""⟩

/-- The type `ManifestKind`: its Go zero value and the five declared kinds. -/
inductive ManifestKind where
  | unset
  | ManifestKindService
  | ManifestKindWorker
  | ManifestKindOnDemand
  | ManifestKindScheduled
  | ManifestKindOnce
  deriving DecidableEq

open ManifestKind

structure Annotation where
  RequestId : String
  deriving DecidableEq

/-- The struct `Deployment`, with the embedded `DeployConfig` fields inlined. -/
structure Deployment where
  Resources : Option StrMap
  Env : Option StrMap
  NumInstances : Int
  Cluster : String
  SourceVersion : SourceVersion
  Owners : Option (Finset String)
  Kind : ManifestKind
  Annotation : Annotation
  deriving DecidableEq

/-- The zero value `Deployment{}`. -/
def Deployment.zero : Deployment :=
  ⟨none, none, 0, "", SourceVersion.zero, none, unset, ⟨""⟩⟩

/-- The struct `singReq`; its client handle `sing` is the `getDeploy` of `Externals`. -/
structure singReq where
  sourceUrl : String
  reqParent : Option SingularityRequestParent
  deriving DecidableEq

/-- Go `error` values seen by the builder: a `fmt.Errorf` value, an error made by
another package (scheduler client, registry client, `semv`), or the builder's own
`*canRetryRequest`. -/
inductive GoError where
  | errorf (msg : String)
  | foreign (msg : String)
  | canRetryRequest (cause : GoError) (req : singReq)
  deriving DecidableEq

/-- Whether the error is a `*canRetryRequest`. -/
def GoError.isCanRetryRequest : GoError → Bool
  | .canRetryRequest _ _ => true
  | _ => false

/-- The names of the four image labels (`DockerRepoLabel` and its siblings). -/
structure DockerLabels where
  DockerRepoLabel : String
  DockerVersionLabel : String
  DockerRevisionLabel : String
  DockerPathLabel : String
  deriving DecidableEq

/-- What the builder uses from outside the package: the label names, `semv.Parse`,
the scheduler client's `GetDeploy` and the registry client's `LabelsForImageName`.
Each call returns its Go result pair (value, error message if any). -/
structure Externals where
  labels : DockerLabels
  semvParse : String → Version × Option String
  getDeploy : String → String → Option SingularityDeployHistory × Option String
  labelsForImageName : String → StrMap × Option String

/-- A remote call made by the builder. -/
inductive Call where
  | getDeploy (requestId deployId : String)
  | labelsForImageName (imageName : String)
  deriving DecidableEq

/-- The struct `deploymentBuilder`; `registryClient` is the `labelsForImageName` of `Externals`. -/
structure deploymentBuilder where
  target : Deployment
  depMarker : Option SingularityDeployMarker
  deploy : Option SingularityDeploy
  request : Option SingularityRequest
  req : singReq
  deriving DecidableEq

/-- The builder together with the trace of remote calls made so far. -/
structure State where
  uc : deploymentBuilder
  calls : List Call
  deriving DecidableEq

/-- Result of a builder method returning `error`: it returns (with the error, `none`
for nil) or panics on a nil dereference. -/
inductive Outcome where
  | ret (s : State) (err : Option GoError)
  | panic (s : State)
  deriving DecidableEq

/-! ## The builder -/

def newDeploymentBuilder (req : singReq) : deploymentBuilder :=
  { target := Deployment.zero, depMarker := none, deploy := none, request := none, req := req }

/-- The condition of the `if` in `canRetry`, evaluated left to right with short circuit. -/
def identityKnown (req : singReq) : Bool :=
  req.sourceUrl != "" &&
    match req.reqParent with
    | none => false
    | some rp =>
      match rp.Request with
      | none => false
      | some r => r.Id != ""

def canRetry (uc : deploymentBuilder) (err : GoError) : GoError :=
  if identityKnown uc.req then .canRetryRequest err uc.req else err

def buildSourceVersion (L : DockerLabels) (semvParse : String → Version × Option String)
    (labels : StrMap) : SourceVersion × Option GoError :=
  let missingLabels : List String := []
  let repo := mapGet labels L.DockerRepoLabel
  let missingLabels := if repo.isNone then missingLabels ++ [L.DockerRepoLabel] else missingLabels
  let versionStr := mapGet labels L.DockerVersionLabel
  let missingLabels :=
    if versionStr.isNone then missingLabels ++ [L.DockerVersionLabel] else missingLabels
  let revision := mapGet labels L.DockerRevisionLabel
  let missingLabels :=
    if revision.isNone then missingLabels ++ [L.DockerRevisionLabel] else missingLabels
  let path := mapGet labels L.DockerPathLabel
  let missingLabels := if path.isNone then missingLabels ++ [L.DockerPathLabel] else missingLabels
  if missingLabels.length > 0 then
    (SourceVersion.zero,
      some (.errorf ("Missing labels on manifest for " ++ sprintfV missingLabels)))
  else
    let (version, err) := semvParse (versionStr.getD "")
    let version := { version with Meta := revision.getD "" }
    ({ RepoURL := repo.getD "", Version := version, RepoOffset := path.getD "" },
      err.map GoError.foreign)

def retrieveDeploy (X : Externals) (s : State) : Outcome :=
  match s.uc.req.reqParent with
  | none => .panic s
  | some rp =>
    match rp.RequestDeployState with
    | none => .ret s (some (.errorf "Singularity response didn't include a deploy state"))
    | some rds =>
      let uc := { s.uc with depMarker := rds.PendingDeploy }
      let uc := if uc.depMarker.isNone then { uc with depMarker := rds.ActiveDeploy } else uc
      match uc.depMarker with
      | none =>
        .ret ⟨uc, s.calls⟩ (some (.errorf "Singularity deploy state included no dep markers"))
      | some m =>
        let calls := s.calls ++ [Call.getDeploy m.RequestId m.DeployId]
        match X.getDeploy m.RequestId m.DeployId with
        | (_, some e) => .ret ⟨uc, calls⟩ (some (.foreign e))
        | (none, none) => .panic ⟨uc, calls⟩
        | (some dh, none) =>
          let uc := { uc with deploy := dh.Deploy }
          if uc.deploy.isNone then
            .ret ⟨uc, calls⟩ (some (.errorf "Singularity deploy history included no deploy"))
          else .ret ⟨uc, calls⟩ none

def retrieveImageLabels (X : Externals) (s : State) : Outcome :=
  match s.uc.deploy with
  | none => .panic s
  | some d =>
    match d.ContainerInfo with
    | none => .panic s
    | some ci =>
      if ci.Type_ != SingularityContainerTypeDOCKER then
        .ret s (some (.errorf "Singularity container isn't a docker container"))
      else
        match ci.Docker with
        | none => .ret s (some (.errorf "Singularity deploy didn't include a docker info"))
        | some dkr =>
          let imageName := dkr.Image
          let calls := s.calls ++ [Call.labelsForImageName imageName]
          match X.labelsForImageName imageName with
          | (_, some e) => .ret ⟨s.uc, calls⟩ (some (.foreign e))
          | (labels, none) =>
            let (sv, err) := buildSourceVersion X.labels X.semvParse labels
            let uc := { s.uc with target := { s.uc.target with SourceVersion := sv } }
            match err with
            | some e => .ret ⟨uc, calls⟩ (some e)
            | none => .ret ⟨uc, calls⟩ none

def unpackDeployConfig (s : State) : Outcome :=
  match s.uc.deploy with
  | none => .panic s
  | some d =>
    let uc := { s.uc with target := { s.uc.target with Env := d.Env } }
    let uc :=
      if uc.target.Env.isNone then { uc with target := { uc.target with Env := some [] } } else uc
    match d.Resources with
    | none => .panic ⟨{ uc with target := { uc.target with Resources := some [] } }, s.calls⟩
    | some singRez =>
      let r : StrMap := []
      let r := mapSet r "cpus" (sprintfF singRez.Cpus)
      let r := mapSet r "memory" (sprintfF singRez.MemoryMb)
      let r := mapSet r "ports" (sprintfD singRez.NumPorts)
      let uc := { uc with target := { uc.target with Resources := some r } }
      match uc.request with
      | none => .panic ⟨uc, s.calls⟩
      | some request =>
        let uc := { uc with target := { uc.target with NumInstances := request.Instances } }
        let uc := { uc with target := { uc.target with Owners := request.Owners } }
        .ret ⟨uc, s.calls⟩ none

def determineManifestKind (s : State) : Outcome :=
  match s.uc.request with
  | none => .panic s
  | some request =>
    let setKind (k : ManifestKind) : Outcome :=
      .ret ⟨{ s.uc with target := { s.uc.target with Kind := k } }, s.calls⟩ none
    if request.RequestType = SingularityRequestRequestTypeSERVICE then
      setKind ManifestKindService
    else if request.RequestType = SingularityRequestRequestTypeWORKER then
      setKind ManifestKindWorker
    else if request.RequestType = SingularityRequestRequestTypeON_DEMAND then
      setKind ManifestKindOnDemand
    else if request.RequestType = SingularityRequestRequestTypeSCHEDULED then
      setKind ManifestKindScheduled
    else if request.RequestType = SingularityRequestRequestTypeRUN_ONCE then
      setKind ManifestKindOnce
    else
      .ret s (some (.errorf
        ("Unrecognized response tupe returned by Singularlity: " ++ request.RequestType)))

/-- Runs `step` and, as `completeConstruction` does after each step, returns its error
through `canRetry`; on a nil error continues with `next`. -/
def andThen (step : Outcome) (next : State → Outcome) : Outcome :=
  match step with
  | .panic s => .panic s
  | .ret s (some err) => .ret s (some (canRetry s.uc err))
  | .ret s none => next s

def completeConstruction (X : Externals) (s : State) : Outcome :=
  let uc := { s.uc with target := { s.uc.target with Cluster := s.uc.req.sourceUrl } }
  match uc.req.reqParent with
  | none => .panic ⟨uc, s.calls⟩
  | some rp =>
    let uc := { uc with request := rp.Request }
    andThen (retrieveDeploy X ⟨uc, s.calls⟩) fun s =>
    andThen (retrieveImageLabels X s) fun s =>
    andThen (unpackDeployConfig s) fun s =>
    andThen (determineManifestKind s) fun s =>
    .ret s none

/-- The state in which a method returned or panicked. -/
def Outcome.state : Outcome → State
  | .ret s _ => s
  | .panic s => s

/-- The error a method returned, if it returned one. -/
def Outcome.error : Outcome → Option GoError
  | .ret _ err => err
  | .panic _ => none

/-- The four required labels, in the order in which `buildSourceVersion` looks them up. -/
def requiredLabels (L : DockerLabels) : List String :=
  [L.DockerRepoLabel, L.DockerVersionLabel, L.DockerRevisionLabel, L.DockerPathLabel]

/-- The message of the missing-labels error naming `names`. -/
def missingLabelsMsg (names : List String) : String :=
  "Missing labels on manifest for " ++ sprintfV names

/-! ## Example inputs -/

def exLabels : DockerLabels :=
  { DockerRepoLabel := "repo", DockerVersionLabel := "version",
    DockerRevisionLabel := "revision", DockerPathLabel := "path" }

/-- A stand-in for `semv.Parse` that accepts `1.2.3` and fails, with a partly filled
version, on everything else. -/
def exParse (v : String) : Version × Option String :=
  if v = "1.2.3" then (⟨1, 2, 3, "", ""⟩, none)
  else (⟨1, 0, 0, "", ""⟩, some "unexpected character")

def exDockerDeploy : SingularityDeploy :=
  { ContainerInfo := some { Type_ := "DOCKER", Docker := some { Image := "img:2" } },
    Env := none,
    Resources := some { Cpus := .finite false 2 0, MemoryMb := .finite false 512 0,
                        NumPorts := 1 } }

def exGoodLabels : StrMap :=
  [("repo", "github.com/x/y"), ("version", "1.2.3"), ("revision", "abc"), ("path", "sub")]

def exExternals : Externals :=
  { labels := exLabels,
    semvParse := exParse,
    getDeploy := fun _ d =>
      if d = "D2" then (some { Deploy := some exDockerDeploy }, none)
      else (none, some "404"),
    labelsForImageName := fun _ => (exGoodLabels, none) }

def exRequest : SingularityRequest :=
  { Id := "req1", Instances := 3, Owners := some {"alice"}, RequestType := "SERVICE" }

def exParent : SingularityRequestParent :=
  { Request := some exRequest,
    RequestDeployState := some { PendingDeploy := some ⟨"req1", "D2"⟩,
                                 ActiveDeploy := some ⟨"req1", "D1"⟩ } }

def exState : State :=
  ⟨newDeploymentBuilder { sourceUrl := "http://sing", reqParent := some exParent }, []⟩

/-! ## Specification vocabulary -/

/-- The marker `retrieveDeploy` selects from a deploy state. -/
def selectedMarker (rds : SingularityRequestDeployState) : Option SingularityDeployMarker :=
  match rds.PendingDeploy with
  | some p => some p
  | none => rds.ActiveDeploy

/-- The `Resources` map `unpackDeployConfig` builds from the scheduler's resources. -/
def unpackedResources (singRez : SingularityResources) : StrMap :=
  [("ports", sprintfD singRez.NumPorts), ("memory", sprintfF singRez.MemoryMb),
    ("cpus", sprintfF singRez.Cpus)]

/-- The builder state after the first two assignments of `completeConstruction`. -/
def constructionStart (s : State) (rp : SingularityRequestParent) : State :=
  ⟨{ s.uc with target := { s.uc.target with Cluster := s.uc.req.sourceUrl },
               request := rp.Request }, s.calls⟩

/-- The step of `completeConstruction` that failed, with the state it returned in and
the error it returned. -/
def StepFailed (X : Externals) (s0 s' : State) (cause : GoError) : Prop :=
  retrieveDeploy X s0 = .ret s' (some cause) ∨
  (∃ s1, retrieveDeploy X s0 = .ret s1 none ∧
    retrieveImageLabels X s1 = .ret s' (some cause)) ∨
  (∃ s1 s2, retrieveDeploy X s0 = .ret s1 none ∧ retrieveImageLabels X s1 = .ret s2 none ∧
    unpackDeployConfig s2 = .ret s' (some cause)) ∨
  (∃ s1 s2 s3, retrieveDeploy X s0 = .ret s1 none ∧ retrieveImageLabels X s1 = .ret s2 none ∧
    unpackDeployConfig s2 = .ret s3 none ∧ determineManifestKind s3 = .ret s' (some cause))

/-- The candidate's identity triple is complete: non-empty source identifier, non-nil
parent request with a non-nil request, non-empty request id. -/
def IdentityComplete (req : singReq) : Prop :=
  req.sourceUrl ≠ "" ∧ ∃ rp r, req.reqParent = some rp ∧ rp.Request = some r ∧ r.Id ≠ ""

/-- The magnitude of a `float64` that is a whole number, `none` for any other value. -/
def Float64.wholeAbs : Float64 → Option Nat
  | .finite _ mant (Int.ofNat e) => some (mant * 2 ^ e)
  | .finite _ mant (Int.negSucc k) =>
    if mant % 2 ^ (k + 1) = 0 then some (mant / 2 ^ (k + 1)) else none
  | _ => none

/-- The sign that `%f` prints in front of a finite `float64`. -/
def Float64.signStr : Float64 → String
  | .finite true _ _ => "-"
  | _ => ""

/-- The five kinds of the `ManifestKind` enum. -/
def manifestKinds : List ManifestKind :=
  [ManifestKindService, ManifestKindWorker, ManifestKindOnDemand, ManifestKindScheduled,
    ManifestKindOnce]

/-- The five request types `determineManifestKind` recognises. -/
def requestTypes : List String :=
  [SingularityRequestRequestTypeSERVICE, SingularityRequestRequestTypeWORKER,
    SingularityRequestRequestTypeON_DEMAND, SingularityRequestRequestTypeSCHEDULED,
    SingularityRequestRequestTypeRUN_ONCE]

/-- The builder state after `determineManifestKind` assigned `k` to `target.Kind`. -/
def withKind (s : State) (k : ManifestKind) : State :=
  ⟨{ s.uc with target := { s.uc.target with Kind := k } }, s.calls⟩

/-- The builder state after `retrieveImageLabels` assigned `sv` to `target.SourceVersion`
having called the registry client for `imageName`. -/
def withSourceVersion (s : State) (sv : SourceVersion) (imageName : String) : State :=
  ⟨{ s.uc with target := { s.uc.target with SourceVersion := sv } },
    s.calls ++ [Call.labelsForImageName imageName]⟩

/-! ## More example inputs -/

def exMesosDeploy : SingularityDeploy :=
  { exDockerDeploy with ContainerInfo := some { Type_ := "MESOS", Docker := none } }

/-- Like `exExternals`, with a scheduler whose deploy `D2` runs a Mesos container. -/
def exMesosExternals : Externals :=
  { exExternals with
    getDeploy := fun _ _ => (some { Deploy := some exMesosDeploy }, none) }

def exBadVersionLabels : StrMap :=
  [("repo", "github.com/x/y"), ("version", "one"), ("revision", "abc"), ("path", "sub")]

/-- Like `exExternals`, with an image whose version label does not parse. -/
def exBadVersionExternals : Externals :=
  { exExternals with labelsForImageName := fun _ => (exBadVersionLabels, none) }

/-- A builder that has fetched `exDockerDeploy` for `exRequest`. -/
def exFetchedState : State :=
  ⟨{ newDeploymentBuilder { sourceUrl := "http://sing", reqParent := some exParent } with
      deploy := some exDockerDeploy, request := some exRequest }, [Call.getDeploy "req1" "D2"]⟩

/-- The state in which `retrieveDeploy` returns for `exState` and the Mesos scheduler. -/
def exMesosFetched : State :=
  (retrieveDeploy exMesosExternals (constructionStart exState exParent)).state

/-- A candidate like `exState` whose request id is empty. -/
def exNoIdState : State :=
  ⟨newDeploymentBuilder
    { sourceUrl := "http://sing",
      reqParent := some { exParent with Request := some { exRequest with Id := "" } } }, []⟩

/-! ## Error text of `canRetryRequest` -/

/-- The method `canRetryRequest.name`: `fmt.Sprintf("%s:%s", sourceUrl, Request.Id)`, with
`none` for the panic on a nil `reqParent` or a nil `Request`. -/
def canRetryRequest.name (req : singReq) : Option String :=
  match req.reqParent with
  | none => none
  | some rp =>
    match rp.Request with
    | none => none
    | some r => some (req.sourceUrl ++ ":" ++ r.Id)

/-- The method `Error` of an error value; for a `canRetryRequest` it is
`fmt.Sprintf("%s: %s", cause, name())`, with `none` when `name` panics. -/
def GoError.Error : GoError → Option String
  | .errorf msg => some msg
  | .foreign msg => some msg
  | .canRetryRequest cause req =>
    match canRetryRequest.name req, cause.Error with
    | some n, some c => some (c ++ ": " ++ n)
    | _, _ => none

/-! ## `BuildDeployment` (file `deployment.go`) -/

/-- The method `OwnerSet.Add`. -/
def OwnerSet.Add (os : Finset String) (owner : String) : Finset String := insert owner os

/-- The type `SourceLocation`. -/
structure SourceLocation where
  RepoURL : String
  RepoOffset : String
  deriving DecidableEq

/-- The fields of `Manifest` that `BuildDeployment` reads. -/
structure Manifest where
  Source : SourceLocation
  Owners : List String
  Kind : ManifestKind
  deriving DecidableEq

/-- The fields of `PartialDeploySpec` that `BuildDeployment` reads. -/
structure PartialDeploySpec where
  clusterName : String
  Resources : Option StrMap
  Env : Option StrMap
  NumInstances : Int
  Version : Version
  deriving DecidableEq

/-- The function `BuildDeployment`; `sourceVersion` is the method
`SourceLocation.SourceVersion`, and the returned error is always nil. -/
def BuildDeployment (sourceVersion : SourceLocation → Version → SourceVersion)
    (m : Manifest) (spec : PartialDeploySpec) : Deployment × Option GoError :=
  let ownMap : Finset String := ∅
  let ownMap := m.Owners.foldl OwnerSet.Add ownMap
  ({ Cluster := spec.clusterName,
     Resources := spec.Resources,
     Env := spec.Env,
     NumInstances := spec.NumInstances,
     Owners := some ownMap,
     Kind := m.Kind,
     SourceVersion := sourceVersion m.Source spec.Version,
     Annotation := ⟨""⟩ }, none)

/-! ## Example inputs for the failure paths -/

/-- A candidate whose scheduler response has no deploy state. -/
def exNoDeployState : State :=
  ⟨newDeploymentBuilder
    { sourceUrl := "http://sing",
      reqParent := some { exParent with RequestDeployState := none } }, []⟩

/-- A builder that has fetched a deploy without container info. -/
def exNoContainerState : State :=
  ⟨{ exFetchedState.uc with deploy := some { exDockerDeploy with ContainerInfo := none } },
    exFetchedState.calls⟩

/-- A builder that has fetched a Docker deploy without docker details. -/
def exNoDockerState : State :=
  ⟨{ exFetchedState.uc with
      deploy := some { exDockerDeploy with
        ContainerInfo := some { Type_ := "DOCKER", Docker := none } } },
    exFetchedState.calls⟩

/-- A candidate like `exState` whose request declares no owners. -/
def exNoOwnersState : State :=
  ⟨newDeploymentBuilder
    { sourceUrl := "http://sing",
      reqParent := some { exParent with Request := some { exRequest with Owners := none } } },
    []⟩

/-! ## Equality of owner sets and deployments (file `deployment.go`) -/

/-- Go `len(os)` of an `OwnerSet`, a map that may be nil. -/
def OwnerSet.len (os : Option (Finset String)) : Nat :=
  match os with
  | none => 0
  | some owners => owners.card

/-- Go `_, has := o[ownr]` on an `OwnerSet` that may be nil. -/
def OwnerSet.has (o : Option (Finset String)) (ownr : String) : Bool :=
  match o with
  | none => false
  | some owners => decide (ownr ∈ owners)

/-- The owners that `range os` visits; none for a nil map. -/
def OwnerSet.keys (os : Option (Finset String)) : Finset String :=
  match os with
  | none => ∅
  | some owners => owners

/-- The method `OwnerSet.Equal`. The loop returns false at the first owner of `os`
that `o` lacks, whatever the order of the visit. -/
def OwnerSet.Equal (os o : Option (Finset String)) : Bool :=
  if OwnerSet.len os != OwnerSet.len o then false
  else if decide (∃ ownr ∈ OwnerSet.keys os, OwnerSet.has o ownr = false) then false
  else true

/-- The struct `DeployConfig`, embedded in `Deployment`. -/
structure DeployConfig where
  Resources : Option StrMap
  Env : Option StrMap
  NumInstances : Int
  deriving DecidableEq

/-- The embedded `DeployConfig` of a `Deployment`. -/
def Deployment.DeployConfig (d : Deployment) : DeployConfig :=
  { Resources := d.Resources, Env := d.Env, NumInstances := d.NumInstances }

/-- The method `Deployment.Equal`; `deployConfigEqual` is the method `DeployConfig.Equal`. -/
def Deployment.Equal (deployConfigEqual : Sous.DeployConfig → Sous.DeployConfig → Bool)
    (d o : Deployment) : Bool :=
  if !(d.Cluster == o.Cluster && d.SourceVersion == o.SourceVersion && d.Kind == o.Kind &&
      OwnerSet.len d.Owners == OwnerSet.len o.Owners) then false
  else if decide (∃ ownr ∈ OwnerSet.keys d.Owners, OwnerSet.has o.Owners ownr = false) then
    false
  else deployConfigEqual (Deployment.DeployConfig d) (Deployment.DeployConfig o)

/-- A stand-in for `DeployConfig.Equal`: equality of the three fields. -/
def exDeployConfigEqual (a b : DeployConfig) : Bool := decide (a = b)

/-- A deployment with owners alice and bob. -/
def exDeployment : Deployment :=
  { Deployment.zero with Cluster := "cluster-a", Owners := some {"alice", "bob"},
                         Kind := ManifestKindService }

/-- A candidate whose parent-request handle is nil. -/
def exNilParentState : State :=
  ⟨newDeploymentBuilder { sourceUrl := "http://sing", reqParent := none }, []⟩

/-- A candidate whose parent has a nil request. -/
def exNilRequestState : State :=
  ⟨newDeploymentBuilder
    { sourceUrl := "http://sing", reqParent := some { exParent with Request := none } }, []⟩

/-- Like `exExternals`, with a scheduler that fails. -/
def exFailingExternals : Externals :=
  { exExternals with getDeploy := fun _ _ => (none, some "503") }

end Sous

/-!
# Legacy config ingestion (package `otpl`, file `otpl.go`)

Go maps that are compared as maps are modelled by their lookup function, owner sets
by finite sets; the aggregation loop of `ParseManifests` is a left fold over the
configs received from the channel, in the order of their arrival.
-/

namespace Otpl

/-- Go `map[string]V` seen through its lookup. -/
abbrev GoMap (V : Type) := String → Option V

/-- Go `m[k] = v`. -/
def GoMap.set {V : Type} (m : GoMap V) (k : String) (v : V) : GoMap V :=
  Function.update m k (some v)

/-- Go `strings.Split(s, sep)` for a one-character separator, on the characters of `s`:
the pieces between the separators, one more than there are separators. -/
def splitChars (sep : Char) : List Char → List (List Char)
  | [] => [[]]
  | c :: cs =>
    if c = sep then [] :: splitChars sep cs
    else
      match splitChars sep cs with
      | [] => [[c]]
      | piece :: pieces => (c :: piece) :: pieces

/-- Go `strings.Split(s, sep)` for a one-character separator. -/
def stringsSplit (s : String) (sep : Char) : List String :=
  (splitChars sep s.data).map String.mk

/-- The struct `sous.DeploySpec`, with the fields `parseSingleOTPLConfig` fills. -/
structure DeploySpec where
  Resources : Sous.StrMap
  Env : Sous.StrMap
  NumInstances : Int
  deriving DecidableEq

/-- The struct `otplDeployConfig`; `Spec` is the pointee of the `*sous.DeploySpec`
that `parseSingleOTPLConfig` always sets. -/
structure otplDeployConfig where
  Name : String
  Owners : List String
  Spec : DeploySpec
  deriving DecidableEq

/-- The struct `otplDeployManifest`: a `sous.OwnerSet` and the `sous.DeploySpecs` map. -/
structure otplDeployManifest where
  Owners : Finset String
  Specs : GoMap DeploySpec

/-- The type `otplDeployManifests`. -/
abbrev otplDeployManifests := GoMap otplDeployManifest

/-- The function `getDeployManifest`: the manifest stored at `key`, created empty and
stored when absent; returns the map too, as the function may have written to it. -/
def getDeployManifest (manifests : otplDeployManifests) (key : String) :
    otplDeployManifests × otplDeployManifest :=
  match manifests key with
  | some manifest => (manifests, manifest)
  | none =>
    let manifest : otplDeployManifest := { Owners := ∅, Specs := fun _ => none }
    (manifests.set key manifest, manifest)

def getClusterAndFlavor (s : otplDeployConfig) : String × String :=
  let splitName := stringsSplit s.Name '.'
  let cluster := splitName.headD ""
  let flavor := ""
  let flavor := if splitName.length > 1 then splitName.getD 1 "" else flavor
  (cluster, flavor)

/-- One iteration of the loop `for s := range c` of `ParseManifests`. The two maps of
`deployManifest` are shared with the entry of `deployManifests`, so the writes to them
are written back to that entry. -/
def aggregateStep (deployManifests : otplDeployManifests) (s : otplDeployConfig) :
    otplDeployManifests :=
  let (cluster, flavor) := getClusterAndFlavor s
  let (deployManifests, deployManifest) := getDeployManifest deployManifests flavor
  let deployManifest := { deployManifest with Specs := deployManifest.Specs.set cluster s.Spec }
  let deployManifest :=
    s.Owners.foldl (fun dm o => { dm with Owners := insert o dm.Owners }) deployManifest
  deployManifests.set flavor deployManifest

/-- The aggregation loop of `ParseManifests` over the configs received, in order. -/
def aggregate (received : List otplDeployConfig) : otplDeployManifests :=
  received.foldl aggregateStep (fun _ => none)

/-- The struct `SingularityJSON`; `Resources` lists the entries of the map in the
order in which `range` visits them. -/
structure SingularityJSON where
  Resources : List (String × Sous.Float64)
  Env : Option Sous.StrMap
  deriving DecidableEq

/-- The table `resourceNameSingToSous`. -/
def resourceNameSingToSous : List (String × String) :=
  [("cpus", "cpus"), ("numPorts", "ports"), ("memoryMb", "memory")]

/-- The errors of `validateResources`: `invalid resource name %q` and
`missing resource(s): %s` with the names joined by a comma. -/
inductive ValidateError where
  | invalidResourceName (k : String)
  | missingResources (missing : List String)
  deriving DecidableEq

/-- Lexicographic order on code points, which is the bytewise order of Go strings. -/
def charsLe : List Char → List Char → Bool
  | [], _ => true
  | _ :: _, [] => false
  | a :: as, b :: bs =>
    if a < b then true
    else if b < a then false
    else charsLe as bs

/-- Go `a <= b` on strings. -/
def strLe (a b : String) : Prop := charsLe a.data b.data = true

instance : DecidableRel strLe := fun _ _ => inferInstanceAs (Decidable (_ = true))

/-- Go `sort.Strings`. -/
def sortStrings (xs : List String) : List String := xs.insertionSort strLe

/-- The function `validateResources`; `rangeOrder` is the order in which `range` visits
the keys of `resourceNameSingToSous`. -/
def validateResources (rangeOrder : List String) (v : SingularityJSON) :
    Option ValidateError :=
  match (v.Resources.map Prod.fst).find? (fun k => (resourceNameSingToSous.lookup k).isNone) with
  | some k => some (.invalidResourceName k)
  | none =>
    let seen := v.Resources.map Prod.fst
    let missing := rangeOrder.filter (fun k => !seen.contains k)
    if missing.length != 0 then some (.missingResources (sortStrings missing)) else none

/-! ## Specification vocabulary and example inputs -/

/-- The owners stored for a flavor, empty when the flavor has no entry. -/
def ownersOf (m : otplDeployManifests) (flavor : String) : Finset String :=
  match m flavor with
  | some dm => dm.Owners
  | none => ∅

/-- The spec stored at a (flavor, cluster) pair. -/
def specAt (m : otplDeployManifests) (flavor cluster : String) : Option DeploySpec :=
  match m flavor with
  | some dm => dm.Specs cluster
  | none => none

/-- The spec map stored for a flavor, empty when the flavor has no entry. -/
def specsOf (m : otplDeployManifests) (flavor : String) : GoMap DeploySpec :=
  match m flavor with
  | some dm => dm.Specs
  | none => fun _ => none

/-- The manifests after a contribution of `owners` and of `spec` at `(flavor, cluster)`. -/
def contribute (m : otplDeployManifests) (flavor cluster : String) (owners : Finset String)
    (spec : DeploySpec) : otplDeployManifests :=
  Function.update m flavor
    (some { Owners := ownersOf m flavor ∪ owners,
            Specs := Function.update (specsOf m flavor) cluster (some spec) })

/-- The (flavor, cluster) pair a config resolves to. -/
def pairOf (s : otplDeployConfig) : String × String :=
  ((getClusterAndFlavor s).2, (getClusterAndFlavor s).1)

def exSpecA : DeploySpec := ⟨[("cpus", "1")], [], 1⟩

def exSpecB : DeploySpec := ⟨[("cpus", "2")], [], 2⟩

def exClusterA : otplDeployConfig := ⟨"cluster-a", ["alice"], exSpecA⟩

def exClusterACanary : otplDeployConfig := ⟨"cluster-a.canary", ["bob"], exSpecB⟩

end Otpl

/-! ## Lemmas on the builder steps -/

namespace Sous

open ManifestKind

theorem retrieveDeploy_eq (X : Externals) (s : State) :
    retrieveDeploy X s =
      match s.uc.req.reqParent with
      | none => .panic s
      | some rp =>
        match rp.RequestDeployState with
        | none => .ret s (some (.errorf "Singularity response didn't include a deploy state"))
        | some rds =>
          match selectedMarker rds with
          | none =>
            .ret ⟨{ s.uc with depMarker := none }, s.calls⟩
              (some (.errorf "Singularity deploy state included no dep markers"))
          | some m =>
            match X.getDeploy m.RequestId m.DeployId with
            | (_, some e) =>
              .ret ⟨{ s.uc with depMarker := some m },
                s.calls ++ [Call.getDeploy m.RequestId m.DeployId]⟩ (some (.foreign e))
            | (none, none) =>
              .panic ⟨{ s.uc with depMarker := some m },
                s.calls ++ [Call.getDeploy m.RequestId m.DeployId]⟩
            | (some dh, none) =>
              match dh.Deploy with
              | none =>
                .ret ⟨{ s.uc with depMarker := some m, deploy := none },
                  s.calls ++ [Call.getDeploy m.RequestId m.DeployId]⟩
                  (some (.errorf "Singularity deploy history included no deploy"))
              | some d =>
                .ret ⟨{ s.uc with depMarker := some m, deploy := some d },
                  s.calls ++ [Call.getDeploy m.RequestId m.DeployId]⟩ none := by
  unfold retrieveDeploy selectedMarker
  cases s.uc.req.reqParent with
  | none => rfl
  | some rp =>
    dsimp only
    cases rp.RequestDeployState with
    | none => rfl
    | some rds =>
      dsimp only
      cases hp : rds.PendingDeploy with
      | none =>
        cases ha : rds.ActiveDeploy with
        | none => simp
        | some m =>
          simp only [Option.isNone_none, if_true]
          rcases X.getDeploy m.RequestId m.DeployId with ⟨dh, e⟩
          cases e with
          | some e => cases dh <;> rfl
          | none =>
            cases dh with
            | none => rfl
            | some dh => cases hd : dh.Deploy <;> simp [hd]
      | some m =>
        simp only [Option.isNone_some, Bool.false_eq_true, if_false]
        rcases X.getDeploy m.RequestId m.DeployId with ⟨dh, e⟩
        cases e with
        | some e => cases dh <;> rfl
        | none =>
          cases dh with
          | none => rfl
          | some dh => cases hd : dh.Deploy <;> simp [hd]

theorem retrieveDeploy_frame (X : Externals) (s : State) :
    (retrieveDeploy X s).state.uc.req = s.uc.req ∧
    (retrieveDeploy X s).state.uc.request = s.uc.request ∧
    (retrieveDeploy X s).state.uc.target = s.uc.target := by
  rw [retrieveDeploy_eq]
  repeat' split
  all_goals simp [Outcome.state]

theorem retrieveDeploy_error (X : Externals) (s s' : State) (e : GoError)
    (h : retrieveDeploy X s = .ret s' (some e)) : e.isCanRetryRequest = false := by
  rw [retrieveDeploy_eq] at h
  repeat' split at h
  all_goals simp at h
  all_goals (obtain ⟨_, rfl⟩ := h; rfl)

theorem retrieveDeploy_ok (X : Externals) (s s' : State)
    (h : retrieveDeploy X s = .ret s' none) : s'.uc.deploy.isSome = true := by
  rw [retrieveDeploy_eq] at h
  repeat' split at h
  all_goals simp at h
  all_goals (subst h; rfl)


theorem buildSourceVersion_absent (L : DockerLabels)
    (semvParse : String → Version × Option String) (labels : StrMap)
    (h : ∃ k ∈ requiredLabels L, mapGet labels k = none) :
    buildSourceVersion L semvParse labels =
      (SourceVersion.zero,
        some (.errorf (missingLabelsMsg
          ((requiredLabels L).filter fun k => (mapGet labels k).isNone)))) := by
  simp only [requiredLabels, List.mem_cons, List.mem_singleton, exists_eq_or_imp,
    exists_eq_left, List.not_mem_nil, false_and, exists_false, or_false] at h
  unfold buildSourceVersion missingLabelsMsg requiredLabels
  cases h1 : mapGet labels L.DockerRepoLabel <;>
  cases h2 : mapGet labels L.DockerVersionLabel <;>
  cases h3 : mapGet labels L.DockerRevisionLabel <;>
  cases h4 : mapGet labels L.DockerPathLabel <;>
  simp_all [List.filter]

theorem buildSourceVersion_present (L : DockerLabels)
    (semvParse : String → Version × Option String) (labels : StrMap)
    (repo versionStr revision path : String)
    (h1 : mapGet labels L.DockerRepoLabel = some repo)
    (h2 : mapGet labels L.DockerVersionLabel = some versionStr)
    (h3 : mapGet labels L.DockerRevisionLabel = some revision)
    (h4 : mapGet labels L.DockerPathLabel = some path) :
    buildSourceVersion L semvParse labels =
      ({ RepoURL := repo, Version := { (semvParse versionStr).1 with Meta := revision },
         RepoOffset := path },
        (semvParse versionStr).2.map GoError.foreign) := by
  unfold buildSourceVersion
  simp only [h1, h2, h3, h4, Option.getD_some]
  rcases semvParse versionStr with ⟨v, e⟩
  simp

theorem buildSourceVersion_error (L : DockerLabels)
    (semvParse : String → Version × Option String) (labels : StrMap) (e : GoError)
    (h : (buildSourceVersion L semvParse labels).2 = some e) : e.isCanRetryRequest = false := by
  by_cases hab : ∃ k ∈ requiredLabels L, mapGet labels k = none
  · rw [buildSourceVersion_absent L semvParse labels hab] at h
    simp at h; subst h; rfl
  · simp only [requiredLabels, List.mem_cons, List.mem_singleton, exists_eq_or_imp,
      exists_eq_left, List.not_mem_nil, false_and, exists_false, or_false, not_or] at hab
    obtain ⟨h1, h2, h3, h4⟩ := hab
    obtain ⟨a, ha⟩ := Option.ne_none_iff_exists'.mp h1
    obtain ⟨b, hb⟩ := Option.ne_none_iff_exists'.mp h2
    obtain ⟨c, hc⟩ := Option.ne_none_iff_exists'.mp h3
    obtain ⟨d, hd⟩ := Option.ne_none_iff_exists'.mp h4
    rw [buildSourceVersion_present L semvParse labels a b c d ha hb hc hd] at h
    cases he : (semvParse b).2 with
    | none => simp [he] at h
    | some e' => simp [he] at h; subst h; rfl

theorem retrieveImageLabels_eq (X : Externals) (s : State) :
    retrieveImageLabels X s =
      match s.uc.deploy with
      | none => .panic s
      | some d =>
        match d.ContainerInfo with
        | none => .panic s
        | some ci =>
          if ci.Type_ = SingularityContainerTypeDOCKER then
            match ci.Docker with
            | none => .ret s (some (.errorf "Singularity deploy didn't include a docker info"))
            | some dkr =>
              match (X.labelsForImageName dkr.Image).2 with
              | some e =>
                .ret ⟨s.uc, s.calls ++ [Call.labelsForImageName dkr.Image]⟩ (some (.foreign e))
              | none =>
                .ret ⟨{ s.uc with target := { s.uc.target with SourceVersion :=
                        (buildSourceVersion X.labels X.semvParse
                          (X.labelsForImageName dkr.Image).1).1 } },
                      s.calls ++ [Call.labelsForImageName dkr.Image]⟩
                  (buildSourceVersion X.labels X.semvParse (X.labelsForImageName dkr.Image).1).2
          else .ret s (some (.errorf "Singularity container isn't a docker container")) := by
  unfold retrieveImageLabels
  cases s.uc.deploy with
  | none => rfl
  | some d =>
    dsimp only
    cases d.ContainerInfo with
    | none => rfl
    | some ci =>
      dsimp only
      by_cases ht : ci.Type_ = SingularityContainerTypeDOCKER
      · simp only [ht, bne_self_eq_false, Bool.false_eq_true, if_false, if_true]
        cases ci.Docker with
        | none => rfl
        | some dkr =>
          dsimp only
          rcases X.labelsForImageName dkr.Image with ⟨labels, e⟩
          cases e with
          | some e => rfl
          | none =>
            dsimp only
            rcases buildSourceVersion X.labels X.semvParse labels with ⟨sv, err⟩
            cases err <;> rfl
      · simp [ht]

theorem retrieveImageLabels_frame (X : Externals) (s : State) :
    (retrieveImageLabels X s).state.uc.req = s.uc.req ∧
    (retrieveImageLabels X s).state.uc.request = s.uc.request ∧
    (retrieveImageLabels X s).state.uc.deploy = s.uc.deploy := by
  rw [retrieveImageLabels_eq]
  repeat' split
  all_goals simp [Outcome.state]

theorem retrieveImageLabels_error (X : Externals) (s s' : State) (e : GoError)
    (h : retrieveImageLabels X s = .ret s' (some e)) : e.isCanRetryRequest = false := by
  rw [retrieveImageLabels_eq] at h
  repeat' split at h
  all_goals simp at h
  all_goals first
    | (obtain ⟨_, rfl⟩ := h; rfl)
    | exact buildSourceVersion_error _ _ _ _ h.2

theorem unpackDeployConfig_eq (s : State) :
    unpackDeployConfig s =
      match s.uc.deploy with
      | none => .panic s
      | some d =>
        match d.Resources with
        | none =>
          .panic ⟨{ s.uc with target := { s.uc.target with
                      Env := some (d.Env.getD []), Resources := some [] } }, s.calls⟩
        | some singRez =>
          match s.uc.request with
          | none =>
            .panic ⟨{ s.uc with target := { s.uc.target with
                        Env := some (d.Env.getD []),
                        Resources := some (unpackedResources singRez) } }, s.calls⟩
          | some request =>
            .ret ⟨{ s.uc with target := { s.uc.target with
                      Env := some (d.Env.getD []),
                      Resources := some (unpackedResources singRez),
                      NumInstances := request.Instances,
                      Owners := request.Owners } }, s.calls⟩ none := by
  unfold unpackDeployConfig unpackedResources
  cases s.uc.deploy with
  | none => rfl
  | some d =>
    dsimp only
    cases hr : d.Resources with
    | none => cases he : d.Env <;> simp
    | some singRez =>
      cases hq : s.uc.request with
      | none => cases he : d.Env <;> simp [hq, mapSet]
      | some request => cases he : d.Env <;> simp [hq, mapSet]

theorem unpackDeployConfig_error (s s' : State) (e : GoError) :
    unpackDeployConfig s ≠ .ret s' (some e) := by
  rw [unpackDeployConfig_eq]
  repeat' split
  all_goals simp

theorem unpackDeployConfig_frame (s : State) :
    (unpackDeployConfig s).state.uc.req = s.uc.req ∧
    (unpackDeployConfig s).state.uc.request = s.uc.request := by
  rw [unpackDeployConfig_eq]
  repeat' split
  all_goals simp [Outcome.state]

theorem determineManifestKind_error (s s' : State) (e : GoError)
    (h : determineManifestKind s = .ret s' (some e)) : e.isCanRetryRequest = false := by
  unfold determineManifestKind at h
  repeat' split at h
  all_goals simp at h
  all_goals (obtain ⟨_, rfl⟩ := h; rfl)


theorem determineManifestKind_frame (s : State) :
    (determineManifestKind s).state.uc.req = s.uc.req ∧
    (determineManifestKind s).state.uc.target.Resources = s.uc.target.Resources := by
  unfold determineManifestKind
  repeat' split
  all_goals simp [Outcome.state]


theorem completeConstruction_eq (X : Externals) (s : State) (rp : SingularityRequestParent)
    (hrp : s.uc.req.reqParent = some rp) :
    completeConstruction X s =
      andThen (retrieveDeploy X (constructionStart s rp)) fun s =>
      andThen (retrieveImageLabels X s) fun s =>
      andThen (unpackDeployConfig s) fun s =>
      andThen (determineManifestKind s) fun s => .ret s none := by
  unfold completeConstruction constructionStart
  simp only [hrp]

theorem canRetry_congr (uc uc' : deploymentBuilder) (e : GoError) (h : uc.req = uc'.req) :
    canRetry uc e = canRetry uc' e := by
  unfold canRetry
  rw [h]

theorem constructionStart_req (s : State) (rp : SingularityRequestParent) :
    (constructionStart s rp).uc.req = s.uc.req := rfl

theorem completeConstruction_error (X : Externals) (s s' : State) (err : GoError)
    (h : completeConstruction X s = .ret s' (some err)) :
    ∃ rp cause, s.uc.req.reqParent = some rp ∧ StepFailed X (constructionStart s rp) s' cause ∧
      cause.isCanRetryRequest = false ∧ err = canRetry s.uc cause := by
  cases hrp : s.uc.req.reqParent with
  | none => simp [completeConstruction, hrp] at h
  | some rp =>
    rw [completeConstruction_eq X s rp hrp] at h
    refine ⟨rp, ?_⟩
    have f0 := constructionStart_req s rp
    have f1 := (retrieveDeploy_frame X (constructionStart s rp)).1
    cases h1 : retrieveDeploy X (constructionStart s rp) with
    | panic s1 => simp [h1, andThen] at h
    | ret s1 e1 =>
      rw [h1] at f1
      simp only [Outcome.state] at f1
      cases e1 with
      | some c =>
        simp only [h1, andThen, Outcome.ret.injEq, Option.some.injEq] at h
        obtain ⟨rfl, rfl⟩ := h
        exact ⟨c, rfl, Or.inl h1, retrieveDeploy_error X _ _ _ h1,
          canRetry_congr _ _ _ (f1.trans f0)⟩
      | none =>
        have f2 := (retrieveImageLabels_frame X s1).1
        cases h2 : retrieveImageLabels X s1 with
        | panic s2 => simp [h1, h2, andThen] at h
        | ret s2 e2 =>
          rw [h2] at f2
          simp only [Outcome.state] at f2
          cases e2 with
          | some c =>
            simp only [h1, h2, andThen, Outcome.ret.injEq, Option.some.injEq] at h
            obtain ⟨rfl, rfl⟩ := h
            exact ⟨c, rfl, Or.inr (Or.inl ⟨s1, h1, h2⟩), retrieveImageLabels_error X _ _ _ h2,
              canRetry_congr _ _ _ (f2.trans (f1.trans f0))⟩
          | none =>
            have f3 := (unpackDeployConfig_frame s2).1
            cases h3 : unpackDeployConfig s2 with
            | panic s3 => simp [h1, h2, h3, andThen] at h
            | ret s3 e3 =>
              rw [h3] at f3
              simp only [Outcome.state] at f3
              cases e3 with
              | some c => exact absurd h3 (unpackDeployConfig_error _ _ _)
              | none =>
                have f4 := (determineManifestKind_frame s3).1
                cases h4 : determineManifestKind s3 with
                | panic s4 => simp [h1, h2, h3, h4, andThen] at h
                | ret s4 e4 =>
                  rw [h4] at f4
                  simp only [Outcome.state] at f4
                  cases e4 with
                  | some c =>
                    simp only [h1, h2, h3, h4, andThen, Outcome.ret.injEq,
                      Option.some.injEq] at h
                    obtain ⟨rfl, rfl⟩ := h
                    exact ⟨c, rfl, Or.inr (Or.inr (Or.inr ⟨s1, s2, s3, h1, h2, h3, h4⟩)),
                      determineManifestKind_error _ _ _ h4,
                      canRetry_congr _ _ _ (f4.trans (f3.trans (f2.trans (f1.trans f0))))⟩
                  | none => simp [h1, h2, h3, h4, andThen] at h

theorem completeConstruction_ok (X : Externals) (s s' : State)
    (h : completeConstruction X s = .ret s' none) :
    ∃ rp s1 s2 s3, s.uc.req.reqParent = some rp ∧
      retrieveDeploy X (constructionStart s rp) = .ret s1 none ∧
      retrieveImageLabels X s1 = .ret s2 none ∧
      unpackDeployConfig s2 = .ret s3 none ∧
      determineManifestKind s3 = .ret s' none := by
  cases hrp : s.uc.req.reqParent with
  | none => simp [completeConstruction, hrp] at h
  | some rp =>
    rw [completeConstruction_eq X s rp hrp] at h
    refine ⟨rp, ?_⟩
    cases h1 : retrieveDeploy X (constructionStart s rp) with
    | panic s1 => simp [h1, andThen] at h
    | ret s1 e1 =>
      cases e1 with
      | some c => simp [h1, andThen] at h
      | none =>
        cases h2 : retrieveImageLabels X s1 with
        | panic s2 => simp [h1, h2, andThen] at h
        | ret s2 e2 =>
          cases e2 with
          | some c => simp [h1, h2, andThen] at h
          | none =>
            cases h3 : unpackDeployConfig s2 with
            | panic s3 => simp [h1, h2, h3, andThen] at h
            | ret s3 e3 =>
              cases e3 with
              | some c => simp [h1, h2, h3, andThen] at h
              | none =>
                cases h4 : determineManifestKind s3 with
                | panic s4 => simp [h1, h2, h3, h4, andThen] at h
                | ret s4 e4 =>
                  cases e4 with
                  | some c => simp [h1, h2, h3, h4, andThen] at h
                  | none =>
                    simp only [h1, h2, h3, h4, andThen, Outcome.ret.injEq, and_true] at h
                    subst h
                    exact ⟨s1, s2, s3, rfl, rfl, h2, h3, h4⟩

theorem identityKnown_iff (req : singReq) :
    identityKnown req = true ↔ IdentityComplete req := by
  unfold identityKnown IdentityComplete
  cases hrp : req.reqParent with
  | none => simp
  | some rp =>
    cases hr : rp.Request with
    | none => simp [hr]
    | some r => simp [hr]

theorem canRetry_complete (uc : deploymentBuilder) (e : GoError)
    (h : IdentityComplete uc.req) : canRetry uc e = .canRetryRequest e uc.req := by
  unfold canRetry
  rw [if_pos ((identityKnown_iff _).2 h)]

theorem canRetry_incomplete (uc : deploymentBuilder) (e : GoError)
    (h : ¬ IdentityComplete uc.req) : canRetry uc e = e := by
  unfold canRetry
  rw [if_neg (fun hk => h ((identityKnown_iff _).1 hk))]

theorem padLeft6_zero : padLeft6 (toString (0 : Nat)) = "000000" := by decide

theorem string_point_zeros (a : String) : a ++ "." ++ "000000" = a ++ ".000000" := by
  rw [String.append_assoc]; rfl

theorem roundHalfEven_dvd (m d : Nat) (hd : 0 < d) (h : m % d = 0) :
    roundHalfEven (m * 10 ^ 6) d = m / d * 10 ^ 6 := by
  have hdvd : d ∣ m := Nat.dvd_of_mod_eq_zero h
  obtain ⟨c, rfl⟩ := hdvd
  have h1 : d * c * 10 ^ 6 % d = 0 := by
    rw [Nat.mul_assoc]; exact Nat.mul_mod_right _ _
  have h2 : d * c * 10 ^ 6 / d = c * 10 ^ 6 := by
    rw [Nat.mul_assoc]; exact Nat.mul_div_cancel_left _ hd
  have h3 : d * c / d = c := Nat.mul_div_cancel_left _ hd
  unfold roundHalfEven
  simp only [h1, h2, h3, Nat.mul_zero, hd, if_true]

theorem sprintfF_whole (x : Float64) (n : Nat) (h : x.wholeAbs = some n) :
    sprintfF x = x.signStr ++ toString n ++ ".000000" := by
  have key : ∀ (neg : Bool) (scaled : Nat), scaled = n * 10 ^ 6 →
      (if neg then "-" else "") ++ toString (scaled / 10 ^ 6) ++ "." ++
        padLeft6 (toString (scaled % 10 ^ 6)) =
      (Float64.finite neg 0 0).signStr ++ toString n ++ ".000000" := by
    intro neg scaled hs
    subst hs
    rw [Nat.mul_div_cancel _ (by norm_num : 0 < 10 ^ 6), Nat.mul_mod_left, padLeft6_zero,
      string_point_zeros]
    cases neg <;> rfl
  cases x with
  | nan => simp [Float64.wholeAbs] at h
  | inf neg => simp [Float64.wholeAbs] at h
  | finite neg mant exp =>
    cases exp with
    | ofNat e =>
      simp only [Float64.wholeAbs, Option.some.injEq] at h
      subst h
      have := key neg (mant * 2 ^ e * 10 ^ 6) rfl
      cases neg <;> exact this
    | negSucc k =>
      simp only [Float64.wholeAbs] at h
      split at h
      · rename_i hm
        simp only [Option.some.injEq] at h
        subst h
        have := key neg (roundHalfEven (mant * 10 ^ 6) (2 ^ (k + 1)))
          (roundHalfEven_dvd mant _ (Nat.pos_pow_of_pos _ (by norm_num)) hm)
        cases neg <;> exact this
      · simp at h

theorem unpackDeployConfig_ok (s s' : State) (h : unpackDeployConfig s = .ret s' none) :
    ∃ singRez, s'.uc.target.Resources = some (unpackedResources singRez) := by
  rw [unpackDeployConfig_eq] at h
  repeat' split at h
  all_goals simp at h
  subst h
  exact ⟨_, rfl⟩

theorem unpackedResources_keys (singRez : SingularityResources) (k : String) :
    (mapGet (unpackedResources singRez) k).isSome = true ↔
      (k = "cpus" ∨ k = "memory" ∨ k = "ports") := by
  unfold mapGet unpackedResources
  by_cases h1 : k = "ports"
  · subst h1; simp [List.lookup]
  · by_cases h2 : k = "memory"
    · subst h2; simp [List.lookup]
    · by_cases h3 : k = "cpus"
      · subst h3; simp [List.lookup]
      · have e1 : (k == "ports") = false := by simp [h1]
        have e2 : (k == "memory") = false := by simp [h2]
        have e3 : (k == "cpus") = false := by simp [h3]
        simp [List.lookup, h1, h2, h3, e1, e2, e3]

theorem determineManifestKind_ok (s s' : State) (h : determineManifestKind s = .ret s' none) :
    s'.uc.target.Kind ∈ manifestKinds := by
  unfold determineManifestKind at h
  repeat' split at h
  all_goals simp at h
  all_goals (subst h; simp [manifestKinds])

/-! ## The claims -/

/-- C1: when the deploy state carries a pending marker, `retrieveDeploy` selects it
(whatever the active marker is) and calls `GetDeploy` with the pending marker's
`RequestId` and `DeployId`, and on success stores the deploy fetched for it; the
active marker is selected only when the pending marker is nil. -/
theorem retrieveDeploy_prefers_pending (X : Externals) (s : State)
    (rp : SingularityRequestParent) (rds : SingularityRequestDeployState)
    (hrp : s.uc.req.reqParent = some rp) (hrds : rp.RequestDeployState = some rds) :
    (∀ p, rds.PendingDeploy = some p →
        (retrieveDeploy X s).state.uc.depMarker = some p ∧
        (retrieveDeploy X s).state.calls = s.calls ++ [Call.getDeploy p.RequestId p.DeployId] ∧
        (∀ s', retrieveDeploy X s = .ret s' none →
          ∃ dh, X.getDeploy p.RequestId p.DeployId = (some dh, none) ∧
            s'.uc.deploy = dh.Deploy)) ∧
    (rds.PendingDeploy = none →
        (retrieveDeploy X s).state.uc.depMarker = rds.ActiveDeploy) := by
  constructor
  · intro p hp
    unfold retrieveDeploy
    simp only [hrp, hrds, hp, Option.isNone_some, Bool.false_eq_true, if_false]
    rcases hg : X.getDeploy p.RequestId p.DeployId with ⟨dh, e⟩
    cases e with
    | some e => simp [Outcome.state]
    | none =>
      cases dh with
      | none => simp [Outcome.state]
      | some dh =>
        cases hd : dh.Deploy <;> simp [Outcome.state, hd]
  · intro hp
    unfold retrieveDeploy
    simp only [hrp, hrds, hp, Option.isNone_none, if_true]
    cases ha : rds.ActiveDeploy with
    | none => simp [Outcome.state]
    | some a =>
      simp only []
      rcases hg : X.getDeploy a.RequestId a.DeployId with ⟨dh, e⟩
      cases e with
      | some e => simp [Outcome.state]
      | none =>
        cases dh with
        | none => simp [Outcome.state]
        | some dh =>
          cases hd : dh.Deploy <;> simp [Outcome.state, hd]

/-- Witness for C1: pending D2 and active D1 select D2 and fetch `(req1, D2)`. -/
theorem retrieveDeploy_prefers_pending_witness :
    exState.uc.req.reqParent = some exParent ∧
    (retrieveDeploy exExternals exState).state.uc.depMarker = some ⟨"req1", "D2"⟩ ∧
    (retrieveDeploy exExternals exState).state.calls = [Call.getDeploy "req1" "D2"] :=
  ⟨rfl,
    ((retrieveDeploy_prefers_pending exExternals exState exParent
      ⟨some ⟨"req1", "D2"⟩, some ⟨"req1", "D1"⟩⟩ rfl rfl).1 ⟨"req1", "D2"⟩ rfl).1,
    ((retrieveDeploy_prefers_pending exExternals exState exParent
      ⟨some ⟨"req1", "D2"⟩, some ⟨"req1", "D1"⟩⟩ rfl rfl).1 ⟨"req1", "D2"⟩ rfl).2.1⟩

/-- C2: `buildSourceVersion` fails with a missing-labels error exactly when one of the
four required labels is absent as a key, and then the error names all the absent
required labels, in the order repo, version, revision, path (and the returned
`SourceVersion` is the zero value). -/
theorem buildSourceVersion_missing_labels (L : DockerLabels)
    (semvParse : String → Version × Option String) (labels : StrMap) :
    ((∃ names, (buildSourceVersion L semvParse labels).2 =
          some (.errorf (missingLabelsMsg names))) ↔
        ∃ k ∈ requiredLabels L, mapGet labels k = none) ∧
    ((∃ k ∈ requiredLabels L, mapGet labels k = none) →
        buildSourceVersion L semvParse labels =
          (SourceVersion.zero,
            some (.errorf (missingLabelsMsg
              ((requiredLabels L).filter fun k => (mapGet labels k).isNone))))) := by
  have key : (∃ k ∈ requiredLabels L, mapGet labels k = none) →
      buildSourceVersion L semvParse labels =
        (SourceVersion.zero,
          some (.errorf (missingLabelsMsg
            ((requiredLabels L).filter fun k => (mapGet labels k).isNone)))) := by
    intro h
    simp only [requiredLabels, List.mem_cons, List.mem_singleton, exists_eq_or_imp,
      exists_eq_left, List.not_mem_nil, false_and, exists_false, or_false] at h
    unfold buildSourceVersion missingLabelsMsg requiredLabels
    cases h1 : mapGet labels L.DockerRepoLabel <;>
    cases h2 : mapGet labels L.DockerVersionLabel <;>
    cases h3 : mapGet labels L.DockerRevisionLabel <;>
    cases h4 : mapGet labels L.DockerPathLabel <;>
    simp_all [List.filter]
  refine ⟨⟨?_, fun h => ⟨_, by rw [key h]⟩⟩, key⟩
  rintro ⟨names, hn⟩
  by_contra hno
  simp only [requiredLabels, List.mem_cons, List.mem_singleton, exists_eq_or_imp,
    exists_eq_left, List.not_mem_nil, false_and, exists_false, or_false, not_or] at hno
  obtain ⟨h1, h2, h3, h4⟩ := hno
  obtain ⟨a, ha⟩ := Option.ne_none_iff_exists'.mp h1
  obtain ⟨b, hb⟩ := Option.ne_none_iff_exists'.mp h2
  obtain ⟨c, hc⟩ := Option.ne_none_iff_exists'.mp h3
  obtain ⟨d, hd⟩ := Option.ne_none_iff_exists'.mp h4
  unfold buildSourceVersion at hn
  simp only [ha, hb, hc, hd] at hn
  rcases hp : semvParse b with ⟨v, e⟩
  cases e <;> simp [hp] at hn

/-- C3: `canRetry` wraps the cause in a `canRetryRequest` exactly when the source
identifier is non-empty, the parent-request handle and its request are non-nil and the
request id is non-empty; in every other case it returns the cause unchanged. -/
theorem canRetry_iff_identity_known (uc : deploymentBuilder) (cause : GoError) :
    ((uc.req.sourceUrl ≠ "" ∧
        ∃ rp r, uc.req.reqParent = some rp ∧ rp.Request = some r ∧ r.Id ≠ "") →
      canRetry uc cause = .canRetryRequest cause uc.req) ∧
    (¬ (uc.req.sourceUrl ≠ "" ∧
        ∃ rp r, uc.req.reqParent = some rp ∧ rp.Request = some r ∧ r.Id ≠ "") →
      canRetry uc cause = cause) := by
  unfold canRetry identityKnown
  constructor
  · rintro ⟨hs, rp, r, hrp, hr, hid⟩
    simp [hs, hrp, hr, hid]
  · intro h
    cases hrp : uc.req.reqParent with
    | none => simp
    | some rp =>
      cases hr : rp.Request with
      | none => simp [hr]
      | some r =>
        by_cases hs : uc.req.sourceUrl = ""
        · simp [hs]
        · by_cases hid : r.Id = ""
          · simp [hr, hid]
          · exact absurd ⟨hs, rp, r, hrp, hr, hid⟩ h

/-- C4, refuted as stated: for a candidate with a complete identity triple whose fetched
deploy runs a Mesos container, `completeConstruction` returns a `canRetryRequest`. -/
theorem completeConstruction_unsupported_type_counterexample :
    IdentityComplete exState.uc.req ∧
    (completeConstruction exMesosExternals exState).error =
      some (.canRetryRequest (.errorf "Singularity container isn't a docker container")
        exState.uc.req) ∧
    ((completeConstruction exMesosExternals exState).error.map
      GoError.isCanRetryRequest) = some true :=
  ⟨⟨by decide, exParent, exRequest, rfl, rfl, by decide⟩, by rfl, by rfl⟩

/-- C4, amended: when the fetched deploy has container info of a type other than
Docker, `completeConstruction` fails, without calling the image-metadata client, with
the error "Singularity container isn't a docker container" passed through `canRetry`:
a `canRetryRequest` wrapping it when the identity triple is complete, the bare error
otherwise. -/
theorem completeConstruction_unsupported_type (X : Externals) (s s1 : State)
    (rp : SingularityRequestParent) (d : SingularityDeploy) (ci : SingularityContainerInfo)
    (hrp : s.uc.req.reqParent = some rp)
    (hfetch : retrieveDeploy X (constructionStart s rp) = .ret s1 none)
    (hd : s1.uc.deploy = some d) (hci : d.ContainerInfo = some ci)
    (hty : ci.Type_ ≠ SingularityContainerTypeDOCKER) :
    (IdentityComplete s.uc.req →
      completeConstruction X s = .ret s1 (some (.canRetryRequest
        (.errorf "Singularity container isn't a docker container") s.uc.req))) ∧
    (¬ IdentityComplete s.uc.req →
      completeConstruction X s =
        .ret s1 (some (.errorf "Singularity container isn't a docker container"))) := by
  have hstep : retrieveImageLabels X s1 =
      .ret s1 (some (.errorf "Singularity container isn't a docker container")) := by
    rw [retrieveImageLabels_eq]
    simp [hd, hci, hty]
  have hreq : s1.uc.req = s.uc.req := by
    have := (retrieveDeploy_frame X (constructionStart s rp)).1
    rw [hfetch] at this
    exact this
  have hcc : completeConstruction X s = .ret s1 (some (canRetry s.uc
      (.errorf "Singularity container isn't a docker container"))) := by
    rw [completeConstruction_eq X s rp hrp, hfetch]
    simp only [andThen, hstep]
    rw [canRetry_congr _ _ _ hreq]
  constructor
  · intro hid
    rw [hcc, canRetry_complete _ _ hid]
  · intro hid
    rw [hcc, canRetry_incomplete _ _ hid]

/-- Witness for C4 (amended): the Mesos deploy of a candidate with a complete identity
triple fails with the wrapped unsupported-container error. -/
theorem completeConstruction_unsupported_type_witness :
    completeConstruction exMesosExternals exState =
      .ret exMesosFetched (some (.canRetryRequest
        (.errorf "Singularity container isn't a docker container") exState.uc.req)) :=
  (completeConstruction_unsupported_type exMesosExternals exState exMesosFetched exParent
    exMesosDeploy ⟨"MESOS", none⟩ rfl rfl rfl rfl (by decide)).1
    ⟨by decide, exParent, exRequest, rfl, rfl, by decide⟩

/-- C5: every error `completeConstruction` returns is the error of its first failing
step (`retrieveDeploy`, `retrieveImageLabels`, `unpackDeployConfig` or
`determineManifestKind`) passed through `canRetry`; with a complete identity triple it
is a `canRetryRequest` whose cause is that step's error, and with an empty (or absent)
request id it is the step's error itself, which is never a `canRetryRequest`. -/
theorem completeConstruction_error_classified (X : Externals) (s s' : State) (err : GoError)
    (h : completeConstruction X s = .ret s' (some err)) :
    ∃ rp cause, s.uc.req.reqParent = some rp ∧
      StepFailed X (constructionStart s rp) s' cause ∧
      err = canRetry s.uc cause ∧
      (IdentityComplete s.uc.req → err = .canRetryRequest cause s.uc.req) ∧
      ((∀ r, rp.Request = some r → r.Id = "") →
        err = cause ∧ err.isCanRetryRequest = false) := by
  obtain ⟨rp, cause, hrp, hstep, hnot, herr⟩ := completeConstruction_error X s s' err h
  refine ⟨rp, cause, hrp, hstep, herr, ?_, ?_⟩
  · intro hid
    rw [herr, canRetry_complete _ _ hid]
  · intro hno
    have hinc : ¬ IdentityComplete s.uc.req := by
      rintro ⟨_, rp', r, hrp', hr, hne⟩
      rw [hrp] at hrp'
      cases hrp'
      exact hne (hno r hr)
    have hc : err = cause := by rw [herr, canRetry_incomplete _ _ hinc]
    exact ⟨hc, hc ▸ hnot⟩

/-- Witness for C5: the candidate without a request id gets the bare step error. -/
theorem completeConstruction_error_classified_witness :
    ∃ rp cause, exNoIdState.uc.req.reqParent = some rp ∧
      StepFailed exMesosExternals (constructionStart exNoIdState rp)
        (completeConstruction exMesosExternals exNoIdState).state cause ∧
      GoError.errorf "Singularity container isn't a docker container" =
        canRetry exNoIdState.uc cause ∧
      (IdentityComplete exNoIdState.uc.req →
        GoError.errorf "Singularity container isn't a docker container" =
          .canRetryRequest cause exNoIdState.uc.req) ∧
      ((∀ r, rp.Request = some r → r.Id = "") →
        GoError.errorf "Singularity container isn't a docker container" = cause ∧
        (GoError.errorf "Singularity container isn't a docker container").isCanRetryRequest
          = false) :=
  completeConstruction_error_classified exMesosExternals exNoIdState
    (completeConstruction exMesosExternals exNoIdState).state
    (.errorf "Singularity container isn't a docker container") rfl

/-- C6, at the failing input: with all four labels present and the version label `one`,
which does not parse, `buildSourceVersion` returns the error together with a filled-in
`SourceVersion` (not the zero value that its missing-labels branch returns), and
`retrieveImageLabels` stores it in `target.SourceVersion`. -/
theorem buildSourceVersion_parse_failure_partial_value :
    (∀ k ∈ requiredLabels exLabels, (mapGet exBadVersionLabels k).isSome = true) ∧
    (exParse "one").2 = some "unexpected character" ∧
    buildSourceVersion exLabels exParse exBadVersionLabels =
      (⟨"github.com/x/y", ⟨1, 0, 0, "", "abc"⟩, "sub"⟩,
        some (.foreign "unexpected character")) ∧
    (buildSourceVersion exLabels exParse exBadVersionLabels).1 ≠ SourceVersion.zero ∧
    exFetchedState.uc.target.SourceVersion = SourceVersion.zero ∧
    (retrieveImageLabels exBadVersionExternals exFetchedState).error =
      some (.foreign "unexpected character") ∧
    (retrieveImageLabels exBadVersionExternals exFetchedState).state.uc.target.SourceVersion =
      ⟨"github.com/x/y", ⟨1, 0, 0, "", "abc"⟩, "sub"⟩ := by
  refine ⟨by decide, by rfl, by rfl, by decide, by rfl, by rfl, by rfl⟩

/-- What the code does on a parse failure: with all four labels present and a version
label that does not parse,
`buildSourceVersion` returns the parse error together with a `SourceVersion` whose
`RepoURL` is the repo label, whose `RepoOffset` is the path label and whose `Version`
is the value `semv.Parse` returned with `Meta` set to the revision label;
`retrieveImageLabels` stores that value in `target.SourceVersion` and returns the
error. -/
theorem buildSourceVersion_parse_failure (X : Externals) (s : State) (d : SingularityDeploy)
    (ci : SingularityContainerInfo) (dkr : SingularityDockerInfo) (labels : StrMap)
    (repo versionStr revision path e : String)
    (hd : s.uc.deploy = some d) (hci : d.ContainerInfo = some ci)
    (hty : ci.Type_ = SingularityContainerTypeDOCKER) (hdkr : ci.Docker = some dkr)
    (hl : X.labelsForImageName dkr.Image = (labels, none))
    (h1 : mapGet labels X.labels.DockerRepoLabel = some repo)
    (h2 : mapGet labels X.labels.DockerVersionLabel = some versionStr)
    (h3 : mapGet labels X.labels.DockerRevisionLabel = some revision)
    (h4 : mapGet labels X.labels.DockerPathLabel = some path)
    (he : (X.semvParse versionStr).2 = some e) :
    buildSourceVersion X.labels X.semvParse labels =
      ({ RepoURL := repo, Version := { (X.semvParse versionStr).1 with Meta := revision },
         RepoOffset := path }, some (.foreign e)) ∧
    retrieveImageLabels X s =
      .ret (withSourceVersion s
          { RepoURL := repo, Version := { (X.semvParse versionStr).1 with Meta := revision },
            RepoOffset := path } dkr.Image)
        (some (.foreign e)) := by
  have hb := buildSourceVersion_present X.labels X.semvParse labels repo versionStr revision
    path h1 h2 h3 h4
  rw [he] at hb
  refine ⟨hb, ?_⟩
  rw [retrieveImageLabels_eq]
  simp only [hd, hci, hty, if_true, hdkr, hl, hb]
  simp [withSourceVersion, hd]

/-- The parse failure of the image whose version label is `one`. -/
theorem buildSourceVersion_parse_failure_example :
    buildSourceVersion exLabels exParse exBadVersionLabels =
      (⟨"github.com/x/y", ⟨1, 0, 0, "", "abc"⟩, "sub"⟩,
        some (.foreign "unexpected character")) ∧
    retrieveImageLabels exBadVersionExternals exFetchedState =
      .ret (withSourceVersion exFetchedState
        ⟨"github.com/x/y", ⟨1, 0, 0, "", "abc"⟩, "sub"⟩ "img:2")
        (some (.foreign "unexpected character")) :=
  buildSourceVersion_parse_failure exBadVersionExternals exFetchedState exDockerDeploy
    ⟨"DOCKER", some ⟨"img:2"⟩⟩ ⟨"img:2"⟩ exBadVersionLabels "github.com/x/y" "one" "abc" "sub"
    "unexpected character" rfl rfl rfl rfl rfl rfl rfl rfl rfl rfl

/-- C7: with all four labels present and a version label that parses,
`buildSourceVersion` returns no error and the `SourceVersion` whose `RepoURL` is the
repo label, whose `RepoOffset` is the path label and whose `Version` is the parsed
version with `Meta` replaced by the revision label. -/
theorem buildSourceVersion_success (L : DockerLabels)
    (semvParse : String → Version × Option String) (labels : StrMap)
    (repo versionStr revision path : String)
    (h1 : mapGet labels L.DockerRepoLabel = some repo)
    (h2 : mapGet labels L.DockerVersionLabel = some versionStr)
    (h3 : mapGet labels L.DockerRevisionLabel = some revision)
    (h4 : mapGet labels L.DockerPathLabel = some path)
    (hp : (semvParse versionStr).2 = none) :
    buildSourceVersion L semvParse labels =
      ({ RepoURL := repo, Version := { (semvParse versionStr).1 with Meta := revision },
         RepoOffset := path }, none) := by
  rw [buildSourceVersion_present L semvParse labels repo versionStr revision path h1 h2 h3 h4,
    hp]
  rfl

/-- Witness for C7: the labels of `exGoodLabels` give version `1.2.3+abc`. -/
theorem buildSourceVersion_success_witness :
    buildSourceVersion exLabels exParse exGoodLabels =
      (⟨"github.com/x/y", ⟨1, 2, 3, "", "abc"⟩, "sub"⟩, none) :=
  buildSourceVersion_success exLabels exParse exGoodLabels "github.com/x/y" "1.2.3" "abc" "sub"
    rfl rfl rfl rfl rfl

/-- C8, at the failing input: scheduler values cpus 2.0, memoryMb 512, numPorts 1 produce
cpus "2.000000" and memory "512.000000", not the minimal "2" and "512". -/
theorem unpackDeployConfig_six_decimals :
    exFetchedState.uc.deploy = some exDockerDeploy ∧
    exDockerDeploy.Resources =
      some ⟨Float64.finite false 2 0, Float64.finite false 512 0, 1⟩ ∧
    (unpackDeployConfig exFetchedState).error = none ∧
    (unpackDeployConfig exFetchedState).state.uc.target.Resources =
      some [("ports", "1"), ("memory", "512.000000"), ("cpus", "2.000000")] ∧
    (unpackDeployConfig exFetchedState).state.uc.target.Resources.map
      (fun r => (mapGet r "cpus", mapGet r "memory", mapGet r "ports")) ≠
      some (some "2", some "512", some "1") := by
  refine ⟨by rfl, by rfl, by rfl, by rfl, by decide⟩

/-- What the code does with whole numbers: for scheduler resources whose cpus and
memoryMb are whole numbers,
`unpackDeployConfig` formats them in fixed notation with six decimals (the whole number
followed by ".000000") and the port count as its minimal decimal string. -/
theorem unpackDeployConfig_whole_resources (s : State) (d : SingularityDeploy)
    (singRez : SingularityResources) (request : SingularityRequest) (c m : Nat)
    (hd : s.uc.deploy = some d) (hr : d.Resources = some singRez)
    (hq : s.uc.request = some request)
    (hc : singRez.Cpus.wholeAbs = some c) (hm : singRez.MemoryMb.wholeAbs = some m) :
    ∃ s' r, unpackDeployConfig s = .ret s' none ∧ s'.uc.target.Resources = some r ∧
      mapGet r "cpus" = some (singRez.Cpus.signStr ++ toString c ++ ".000000") ∧
      mapGet r "memory" = some (singRez.MemoryMb.signStr ++ toString m ++ ".000000") ∧
      mapGet r "ports" = some (toString singRez.NumPorts) := by
  rw [unpackDeployConfig_eq]
  simp only [hd, hr, hq]
  refine ⟨_, _, rfl, rfl, ?_, ?_, ?_⟩
  · rw [← sprintfF_whole _ _ hc]; simp [mapGet, unpackedResources, List.lookup]
  · rw [← sprintfF_whole _ _ hm]; simp [mapGet, unpackedResources, List.lookup]
  · simp [mapGet, unpackedResources, List.lookup, sprintfD]

/-- The resources built from cpus 2.0, memoryMb 512, numPorts 1. -/
theorem unpackDeployConfig_whole_resources_example :
    ∃ s' r, unpackDeployConfig exFetchedState = .ret s' none ∧
      s'.uc.target.Resources = some r ∧
      mapGet r "cpus" = some ("" ++ toString 2 ++ ".000000") ∧
      mapGet r "memory" = some ("" ++ toString 512 ++ ".000000") ∧
      mapGet r "ports" = some (toString (1 : Int)) :=
  unpackDeployConfig_whole_resources exFetchedState exDockerDeploy
    ⟨Float64.finite false 2 0, Float64.finite false 512 0, 1⟩ exRequest 2 512
    rfl rfl rfl rfl rfl

/-- C9: when `completeConstruction` returns nil, `target.Resources` is a map whose key
set is exactly cpus, memory, ports. -/
theorem completeConstruction_resources_keys (X : Externals) (s s' : State)
    (h : completeConstruction X s = .ret s' none) :
    ∃ r, s'.uc.target.Resources = some r ∧
      ∀ k, (mapGet r k).isSome = true ↔ (k = "cpus" ∨ k = "memory" ∨ k = "ports") := by
  obtain ⟨rp, s1, s2, s3, _, _, _, h3, h4⟩ := completeConstruction_ok X s s' h
  obtain ⟨singRez, hres⟩ := unpackDeployConfig_ok s2 s3 h3
  have hf := (determineManifestKind_frame s3).2
  rw [h4] at hf
  simp only [Outcome.state] at hf
  exact ⟨_, hf.trans hres, unpackedResources_keys singRez⟩

/-- Witness for C9: the successful build of `exState`. -/
theorem completeConstruction_resources_keys_witness :
    ∃ r, (completeConstruction exExternals exState).state.uc.target.Resources = some r ∧
      ∀ k, (mapGet r k).isSome = true ↔ (k = "cpus" ∨ k = "memory" ∨ k = "ports") :=
  completeConstruction_resources_keys exExternals exState
    (completeConstruction exExternals exState).state rfl

/-- C10: `determineManifestKind` maps SERVICE, WORKER, ON_DEMAND, SCHEDULED, RUN_ONCE to
Service, Worker, OnDemand, Scheduled, Once and returns nil; for every other request type
it returns an error and leaves the builder (so `target.Kind`) unchanged; hence it returns
nil for exactly these five types, and after a successful `completeConstruction` the
`Kind` is one of the five enum values. -/
theorem determineManifestKind_table (s : State) (request : SingularityRequest)
    (hq : s.uc.request = some request) :
    (request.RequestType = "SERVICE" →
      determineManifestKind s = .ret (withKind s ManifestKindService) none) ∧
    (request.RequestType = "WORKER" →
      determineManifestKind s = .ret (withKind s ManifestKindWorker) none) ∧
    (request.RequestType = "ON_DEMAND" →
      determineManifestKind s = .ret (withKind s ManifestKindOnDemand) none) ∧
    (request.RequestType = "SCHEDULED" →
      determineManifestKind s = .ret (withKind s ManifestKindScheduled) none) ∧
    (request.RequestType = "RUN_ONCE" →
      determineManifestKind s = .ret (withKind s ManifestKindOnce) none) ∧
    (request.RequestType ∉ requestTypes →
      determineManifestKind s = .ret s (some (.errorf
        ("Unrecognized response tupe returned by Singularlity: " ++ request.RequestType)))) ∧
    ((determineManifestKind s).error = none ↔ request.RequestType ∈ requestTypes) ∧
    (∀ (X : Externals) (s0 s' : State), completeConstruction X s0 = .ret s' none →
      s'.uc.target.Kind ∈ manifestKinds) := by
  refine ⟨?_, ?_, ?_, ?_, ?_, ?_, ?_, ?_⟩
  · intro h; simp [determineManifestKind, hq, h, withKind,
      SingularityRequestRequestTypeSERVICE]
  · intro h; simp [determineManifestKind, hq, h, withKind,
      SingularityRequestRequestTypeSERVICE, SingularityRequestRequestTypeWORKER]
  · intro h; simp [determineManifestKind, hq, h, withKind,
      SingularityRequestRequestTypeSERVICE, SingularityRequestRequestTypeWORKER,
      SingularityRequestRequestTypeON_DEMAND]
  · intro h; simp [determineManifestKind, hq, h, withKind,
      SingularityRequestRequestTypeSERVICE, SingularityRequestRequestTypeWORKER,
      SingularityRequestRequestTypeON_DEMAND, SingularityRequestRequestTypeSCHEDULED]
  · intro h; simp [determineManifestKind, hq, h, withKind,
      SingularityRequestRequestTypeSERVICE, SingularityRequestRequestTypeWORKER,
      SingularityRequestRequestTypeON_DEMAND, SingularityRequestRequestTypeSCHEDULED,
      SingularityRequestRequestTypeRUN_ONCE]
  · intro h
    simp only [requestTypes, List.mem_cons, List.mem_singleton, List.not_mem_nil, or_false,
      not_or] at h
    obtain ⟨h1, h2, h3, h4, h5⟩ := h
    simp [determineManifestKind, hq, h1, h2, h3, h4, h5]
  · simp only [requestTypes, List.mem_cons, List.mem_singleton, List.not_mem_nil, or_false]
    unfold determineManifestKind
    simp only [hq]
    repeat' split
    all_goals simp_all [Outcome.error]
  · intro X s0 s' h
    obtain ⟨rp, s1, s2, s3, _, _, _, _, h4⟩ := completeConstruction_ok X s0 s' h
    exact determineManifestKind_ok s3 s' h4

/-- Witness for C10: the request of `exFetchedState` has type SERVICE. -/
theorem determineManifestKind_table_witness :
    determineManifestKind exFetchedState =
      .ret (withKind exFetchedState ManifestKindService) none :=
  (determineManifestKind_table exFetchedState exRequest rfl).1 rfl

end Sous

/-! ## Lemmas and claims on the legacy config ingestion -/

namespace Otpl

theorem splitChars_eq (sep : Char) (cs : List Char) :
    splitChars sep cs =
      cs.takeWhile (· != sep) ::
        (match cs.dropWhile (· != sep) with
          | [] => []
          | _ :: rest => splitChars sep rest) := by
  induction cs with
  | nil => rfl
  | cons c cs ih =>
    by_cases h : c = sep
    · subst h
      simp [splitChars, List.takeWhile_cons, List.dropWhile_cons]
    · rw [splitChars, if_neg h, ih]
      simp [List.takeWhile_cons, List.dropWhile_cons, h]

theorem getClusterAndFlavor_eq (s : otplDeployConfig) :
    getClusterAndFlavor s =
      (String.mk (s.Name.data.takeWhile (· != '.')),
        String.mk (((s.Name.data.dropWhile (· != '.')).drop 1).takeWhile (· != '.'))) := by
  unfold getClusterAndFlavor stringsSplit
  rw [splitChars_eq]
  cases hd : s.Name.data.dropWhile (· != '.') with
  | nil => simp
  | cons c rest =>
    dsimp only
    rw [splitChars_eq '.' rest]
    simp

theorem takeWhile_dropWhile_append (a b : List Char) (ha : '.' ∉ a) :
    (a ++ '.' :: b).takeWhile (· != '.') = a ∧
    (a ++ '.' :: b).dropWhile (· != '.') = '.' :: b := by
  induction a with
  | nil => simp [List.takeWhile_cons, List.dropWhile_cons]
  | cons c a ih =>
    have hc : c ≠ '.' := fun h => ha (by simp [h])
    have ha' : '.' ∉ a := fun h => ha (by simp [h])
    simp [List.takeWhile_cons, List.dropWhile_cons, hc, ih ha']

theorem takeWhile_dropWhile_nodot (a : List Char) (ha : '.' ∉ a) :
    a.takeWhile (· != '.') = a ∧ a.dropWhile (· != '.') = [] := by
  induction a with
  | nil => simp
  | cons c a ih =>
    have hc : c ≠ '.' := fun h => ha (by simp [h])
    have ha' : '.' ∉ a := fun h => ha (by simp [h])
    simp [List.takeWhile_cons, List.dropWhile_cons, hc, ih ha']

/-- C11, refuted as stated: for the name `a.b.c` the flavor is `b`, not `b.c`, and
cluster, `.` and flavor do not reproduce the name. -/
theorem getClusterAndFlavor_first_dot_counterexample :
    getClusterAndFlavor ⟨"a.b.c", [], exSpecA⟩ = ("a", "b") ∧
    (getClusterAndFlavor ⟨"a.b.c", [], exSpecA⟩).2 ≠ "b.c" ∧
    (getClusterAndFlavor ⟨"a.b.c", [], exSpecA⟩).1 ++ "." ++
      (getClusterAndFlavor ⟨"a.b.c", [], exSpecA⟩).2 ≠ "a.b.c" := by
  refine ⟨by rfl, by decide, by decide⟩

/-- C11, amended: `getClusterAndFlavor` splits the name on every `.`: the cluster is the
text before the first `.` and the flavor is the text between the first and the second
`.` (all the text after the first `.` when there is no second one); so a name
`a.b` with no `.` in `a` or `b` gives `(a, b)`, a name `a.b.rest` gives `(a, b)`, and
a name with no `.` gives the whole name and the empty flavor. -/
theorem getClusterAndFlavor_split (s : otplDeployConfig) :
    getClusterAndFlavor s =
      (String.mk (s.Name.data.takeWhile (· != '.')),
        String.mk (((s.Name.data.dropWhile (· != '.')).drop 1).takeWhile (· != '.'))) ∧
    ('.' ∉ s.Name.data → getClusterAndFlavor s = (s.Name, "")) ∧
    (∀ a b : String, s.Name = a ++ "." ++ b → '.' ∉ a.data → '.' ∉ b.data →
      getClusterAndFlavor s = (a, b)) ∧
    (∀ a b rest : String, s.Name = a ++ "." ++ b ++ "." ++ rest → '.' ∉ a.data →
      '.' ∉ b.data → getClusterAndFlavor s = (a, b)) := by
  refine ⟨getClusterAndFlavor_eq s, ?_, ?_, ?_⟩
  · intro h
    rw [getClusterAndFlavor_eq]
    obtain ⟨h1, h2⟩ := takeWhile_dropWhile_nodot _ h
    rw [h1, h2]
    rfl
  · intro a b hn ha hb
    rw [getClusterAndFlavor_eq]
    have hdata : s.Name.data = a.data ++ '.' :: b.data := by
      rw [hn]; simp [String.data_append]
    obtain ⟨h1, h2⟩ := takeWhile_dropWhile_append a.data b.data ha
    rw [hdata, h1, h2]
    simp [(takeWhile_dropWhile_nodot _ hb).1]
  · intro a b rest hn ha hb
    rw [getClusterAndFlavor_eq]
    have hdata : s.Name.data = a.data ++ '.' :: (b.data ++ '.' :: rest.data) := by
      rw [hn]; simp [String.data_append]
    obtain ⟨h1, h2⟩ := takeWhile_dropWhile_append a.data (b.data ++ '.' :: rest.data) ha
    rw [hdata, h1, h2]
    simp [(takeWhile_dropWhile_append b.data rest.data hb).1]

/-- Witness for C11 (amended): `cluster-a.canary` and `cluster-a`. -/
theorem getClusterAndFlavor_split_witness :
    getClusterAndFlavor exClusterACanary = ("cluster-a", "canary") ∧
    getClusterAndFlavor exClusterA = ("cluster-a", "") :=
  ⟨(getClusterAndFlavor_split exClusterACanary).2.2.1 "cluster-a" "canary" (by decide)
      (by decide) (by decide),
    (getClusterAndFlavor_split exClusterA).2.1 (by decide)⟩

theorem foldl_owners (owners : List String) (dm : otplDeployManifest) :
    owners.foldl (fun dm o => { dm with Owners := insert o dm.Owners }) dm =
      { Owners := dm.Owners ∪ owners.toFinset, Specs := dm.Specs } := by
  induction owners generalizing dm with
  | nil => simp
  | cons o os ih =>
    rw [List.foldl_cons, ih]
    congr 1
    ext x
    simp only [Finset.mem_union, Finset.mem_insert, List.mem_toFinset, List.mem_cons]
    tauto

theorem aggregateStep_eq (m : otplDeployManifests) (s : otplDeployConfig) :
    aggregateStep m s =
      contribute m (pairOf s).1 (pairOf s).2 s.Owners.toFinset s.Spec := by
  unfold aggregateStep getDeployManifest contribute ownersOf specsOf pairOf GoMap.set
  cases h : m (getClusterAndFlavor s).2 with
  | none => simp [foldl_owners, h, GoMap.set]
  | some dm => simp [foldl_owners, h, GoMap.set]

theorem ownersOf_contribute (m : otplDeployManifests) (f c : String) (o : Finset String)
    (sp : DeploySpec) (g : String) :
    ownersOf (contribute m f c o sp) g = if g = f then ownersOf m f ∪ o else ownersOf m g := by
  unfold contribute
  by_cases h : g = f
  · subst h; simp [ownersOf]
  · simp [ownersOf, Function.update_noteq h, h]

theorem specsOf_contribute (m : otplDeployManifests) (f c : String) (o : Finset String)
    (sp : DeploySpec) (g : String) :
    specsOf (contribute m f c o sp) g =
      if g = f then Function.update (specsOf m f) c (some sp) else specsOf m g := by
  unfold contribute
  by_cases h : g = f
  · subst h; simp [specsOf]
  · simp [specsOf, Function.update_noteq h, h]

theorem contribute_apply (m : otplDeployManifests) (f c : String) (o : Finset String)
    (sp : DeploySpec) (g : String) :
    contribute m f c o sp g =
      if g = f then
        some { Owners := ownersOf m f ∪ o,
               Specs := Function.update (specsOf m f) c (some sp) }
      else m g := by
  unfold contribute
  by_cases h : g = f
  · subst h; simp
  · simp [Function.update_noteq h, h]

theorem contribute_comm (m : otplDeployManifests) (f c f' c' : String)
    (o o' : Finset String) (sp sp' : DeploySpec) (h : (f, c) ≠ (f', c')) :
    contribute (contribute m f c o sp) f' c' o' sp' =
      contribute (contribute m f' c' o' sp') f c o sp := by
  funext g
  simp only [contribute_apply, ownersOf_contribute, specsOf_contribute]
  by_cases hf : f = f'
  · subst hf
    have hc : c ≠ c' := fun hc => h (by rw [hc])
    by_cases hg : g = f
    · simp only [hg, if_true, Option.some.injEq]
      rw [Finset.union_right_comm, Function.update_comm hc]
    · simp only [hg, if_false]
  · have hf' : f' ≠ f := fun e => hf e.symm
    by_cases hg : g = f
    · subst hg
      simp only [if_true, hf, hf', if_false]
    · by_cases hg' : g = f'
      · subst hg'
        simp only [if_true, hf, hf', if_false]
      · simp only [hg, hg', if_false]

theorem aggregateStep_comm (m : otplDeployManifests) (x y : otplDeployConfig)
    (h : pairOf x ≠ pairOf y) :
    aggregateStep (aggregateStep m x) y = aggregateStep (aggregateStep m y) x := by
  simp only [aggregateStep_eq]
  exact contribute_comm m _ _ _ _ _ _ _ _ h


theorem specAt_eq (m : otplDeployManifests) (f c : String) : specAt m f c = specsOf m f c := by
  unfold specAt specsOf
  cases m f <;> rfl

theorem aggregate_append (l : List otplDeployConfig) (x : otplDeployConfig) :
    aggregate (l ++ [x]) = aggregateStep (aggregate l) x := by
  simp [aggregate, List.foldl_append]

theorem specAt_step_same (m : otplDeployManifests) (x : otplDeployConfig) :
    specAt (aggregateStep m x) (pairOf x).1 (pairOf x).2 = some x.Spec := by
  rw [specAt_eq, aggregateStep_eq, specsOf_contribute]
  simp

theorem specAt_step_other (m : otplDeployManifests) (y : otplDeployConfig) (f c : String)
    (h : pairOf y ≠ (f, c)) :
    specAt (aggregateStep m y) f c = specAt m f c := by
  rw [specAt_eq, specAt_eq, aggregateStep_eq, specsOf_contribute]
  by_cases hf : f = (pairOf y).1
  · have hc : c ≠ (pairOf y).2 := fun hc => h (by rw [hf, hc])
    rw [if_pos hf, Function.update_noteq hc, hf]
  · rw [if_neg hf]

theorem specAt_foldl_other (l : List otplDeployConfig) (m : otplDeployManifests)
    (f c : String) (h : ∀ y ∈ l, pairOf y ≠ (f, c)) :
    specAt (l.foldl aggregateStep m) f c = specAt m f c := by
  induction l generalizing m with
  | nil => rfl
  | cons y l ih =>
    rw [List.foldl_cons, ih _ (fun z hz => h z (List.mem_cons_of_mem _ hz)),
      specAt_step_other _ _ _ _ (h y (List.mem_cons_self _ _))]

theorem ownersOf_step (m : otplDeployManifests) (x : otplDeployConfig) (f o : String) :
    o ∈ ownersOf (aggregateStep m x) f ↔
      o ∈ ownersOf m f ∨ ((pairOf x).1 = f ∧ o ∈ x.Owners) := by
  rw [aggregateStep_eq, ownersOf_contribute]
  by_cases hf : f = (pairOf x).1
  · subst hf; simp
  · have hf' : (pairOf x).1 ≠ f := fun e => hf e.symm
    simp [hf, hf']

theorem ownersOf_foldl (l : List otplDeployConfig) (m : otplDeployManifests) (f o : String) :
    o ∈ ownersOf (l.foldl aggregateStep m) f ↔
      o ∈ ownersOf m f ∨ ∃ s ∈ l, (pairOf s).1 = f ∧ o ∈ s.Owners := by
  induction l generalizing m with
  | nil => simp
  | cons y l ih =>
    rw [List.foldl_cons, ih, ownersOf_step]
    simp only [List.mem_cons, exists_eq_or_imp]
    tauto

theorem isSome_step (m : otplDeployManifests) (x : otplDeployConfig) (f : String) :
    (aggregateStep m x f).isSome = true ↔ (m f).isSome = true ∨ (pairOf x).1 = f := by
  rw [aggregateStep_eq, contribute_apply]
  by_cases hf : f = (pairOf x).1
  · subst hf; simp
  · have hf' : (pairOf x).1 ≠ f := fun e => hf e.symm
    simp [hf, hf']

theorem isSome_foldl (l : List otplDeployConfig) (m : otplDeployManifests) (f : String) :
    (l.foldl aggregateStep m f).isSome = true ↔
      (m f).isSome = true ∨ ∃ s ∈ l, (pairOf s).1 = f := by
  induction l generalizing m with
  | nil => simp
  | cons y l ih =>
    rw [List.foldl_cons, ih, isSome_step]
    simp only [List.mem_cons, exists_eq_or_imp]
    tauto

theorem specAt_isSome_step (m : otplDeployManifests) (x : otplDeployConfig) (f c : String) :
    (specAt (aggregateStep m x) f c).isSome = true ↔
      (specAt m f c).isSome = true ∨ pairOf x = (f, c) := by
  by_cases h : pairOf x = (f, c)
  · have h1 : (pairOf x).1 = f := by rw [h]
    have h2 : (pairOf x).2 = c := by rw [h]
    subst h1 h2
    simp [specAt_step_same]
  · rw [specAt_step_other _ _ _ _ h]
    simp [h]

theorem specAt_isSome_foldl (l : List otplDeployConfig) (m : otplDeployManifests)
    (f c : String) :
    (specAt (l.foldl aggregateStep m) f c).isSome = true ↔
      (specAt m f c).isSome = true ∨ ∃ s ∈ l, pairOf s = (f, c) := by
  induction l generalizing m with
  | nil => simp
  | cons y l ih =>
    rw [List.foldl_cons, ih, specAt_isSome_step]
    simp only [List.mem_cons, exists_eq_or_imp]
    tauto


/-- C12, refuted as stated: two configs named `cluster-a` resolve to the same pair; the
loop stores the spec of the second one, not of the first. -/
theorem aggregate_collision_counterexample :
    pairOf ⟨"cluster-a", [], exSpecA⟩ = pairOf ⟨"cluster-a", [], exSpecB⟩ ∧
    specAt (aggregate [⟨"cluster-a", [], exSpecA⟩]) "" "cluster-a" = some exSpecA ∧
    specAt (aggregate [⟨"cluster-a", [], exSpecA⟩, ⟨"cluster-a", [], exSpecB⟩]) ""
      "cluster-a" = some exSpecB ∧
    specAt (aggregate [⟨"cluster-a", [], exSpecA⟩, ⟨"cluster-a", [], exSpecB⟩]) ""
      "cluster-a" ≠ some exSpecA := by
  refine ⟨by decide, by decide, by decide, by decide⟩

/-- C12, amended: a contribution whose (flavor, cluster) pair is already populated
replaces the spec stored at that pair, the loop having no collision check: after the
loop, the spec stored at a pair is the one from the last contribution that resolved to
it. -/
theorem aggregate_last_wins (before after : List otplDeployConfig) (x : otplDeployConfig)
    (h : ∀ y ∈ after, pairOf y ≠ pairOf x) :
    specAt (aggregate (before ++ x :: after)) (pairOf x).1 (pairOf x).2 = some x.Spec := by
  unfold aggregate
  rw [List.foldl_append, List.foldl_cons,
    specAt_foldl_other after _ (pairOf x).1 (pairOf x).2 h, specAt_step_same]

/-- Witness for C12 (amended): the second `cluster-a` wins. -/
theorem aggregate_last_wins_witness :
    specAt (aggregate ([⟨"cluster-a", [], exSpecA⟩] ++ ⟨"cluster-a", [], exSpecB⟩ :: []))
      (pairOf ⟨"cluster-a", [], exSpecB⟩).1 (pairOf ⟨"cluster-a", [], exSpecB⟩).2 =
      some exSpecB :=
  aggregate_last_wins [⟨"cluster-a", [], exSpecA⟩] [] ⟨"cluster-a", [], exSpecB⟩
    (by simp)

/-- C13: when no two contributions resolve to the same (flavor, cluster) pair, every
permutation of the list gives the same snapshot. -/
theorem aggregate_perm (l₁ l₂ : List otplDeployConfig) (hp : l₁.Perm l₂)
    (hd : l₁.Pairwise fun a b => pairOf a ≠ pairOf b) :
    aggregate l₁ = aggregate l₂ := by
  unfold aggregate
  refine hp.foldl_eq' ?_ _
  intro x hx y hy z
  by_cases hxy : x = y
  · rw [hxy]
  · exact aggregateStep_comm z x y
      (hd.forall (fun a b hab => fun e => hab e.symm) hx hy hxy)

/-- Witness for C13: `cluster-a` and `cluster-a.canary` in both orders. -/
theorem aggregate_perm_witness :
    aggregate [exClusterA, exClusterACanary] = aggregate [exClusterACanary, exClusterA] :=
  aggregate_perm [exClusterA, exClusterACanary] [exClusterACanary, exClusterA]
    (List.Perm.swap _ _ _) (by decide)

theorem specAt_step_value (m : otplDeployManifests) (x : otplDeployConfig) (f c : String)
    (sp : DeploySpec) (h : specAt (aggregateStep m x) f c = some sp) :
    specAt m f c = some sp ∨ (pairOf x = (f, c) ∧ x.Spec = sp) := by
  by_cases hp : pairOf x = (f, c)
  · right
    have h1 : (pairOf x).1 = f := by rw [hp]
    have h2 : (pairOf x).2 = c := by rw [hp]
    subst h1 h2
    rw [specAt_step_same] at h
    exact ⟨rfl, Option.some.inj h⟩
  · left
    rwa [specAt_step_other _ _ _ _ hp] at h

theorem specAt_foldl_value (l : List otplDeployConfig) (m : otplDeployManifests)
    (f c : String) (sp : DeploySpec) (h : specAt (l.foldl aggregateStep m) f c = some sp) :
    specAt m f c = some sp ∨ ∃ s ∈ l, pairOf s = (f, c) ∧ s.Spec = sp := by
  induction l generalizing m with
  | nil => exact Or.inl h
  | cons y l ih =>
    rw [List.foldl_cons] at h
    rcases ih _ h with h' | ⟨s, hs, hp, hsp⟩
    · rcases specAt_step_value m y f c sp h' with h'' | ⟨hp, hsp⟩
      · exact Or.inl h''
      · exact Or.inr ⟨y, List.mem_cons_self _ _, hp, hsp⟩
    · exact Or.inr ⟨s, List.mem_cons_of_mem _ hs, hp, hsp⟩

/-- C14: the snapshot has an entry for a flavor exactly when a contribution has that
flavor; the entry's owners are exactly the owners of the contributions with that flavor
and its clusters exactly the clusters contributed with that flavor; every spec stored
under a flavor is the spec of a contribution with that flavor and that cluster, and a
contribution whose pair no contribution with another spec shares has its spec stored at
its pair, so no owner or spec of a contribution appears under a different flavor. For
`cluster-a` (owner alice) and `cluster-a.canary` (owner bob) the entries are `""` with
alice and `cluster-a`, and `canary` with bob and `cluster-a`. -/
theorem aggregate_by_flavor (l : List otplDeployConfig) (f : String) :
    ((aggregate l f).isSome = true ↔ ∃ s ∈ l, (getClusterAndFlavor s).2 = f) ∧
    (∀ o, o ∈ ownersOf (aggregate l) f ↔
      ∃ s ∈ l, (getClusterAndFlavor s).2 = f ∧ o ∈ s.Owners) ∧
    (∀ c, (specAt (aggregate l) f c).isSome = true ↔
      ∃ s ∈ l, (getClusterAndFlavor s).2 = f ∧ (getClusterAndFlavor s).1 = c) ∧
    (∀ c sp, specAt (aggregate l) f c = some sp →
      ∃ s ∈ l, (getClusterAndFlavor s).2 = f ∧ (getClusterAndFlavor s).1 = c ∧
        s.Spec = sp) ∧
    (∀ s ∈ l, (getClusterAndFlavor s).2 = f →
      (∀ s' ∈ l, getClusterAndFlavor s' = getClusterAndFlavor s → s'.Spec = s.Spec) →
      specAt (aggregate l) f (getClusterAndFlavor s).1 = some s.Spec) ∧
    (ownersOf (aggregate [exClusterA, exClusterACanary]) "" = {"alice"} ∧
      ownersOf (aggregate [exClusterA, exClusterACanary]) "canary" = {"bob"} ∧
      specAt (aggregate [exClusterA, exClusterACanary]) "" "cluster-a" = some exSpecA ∧
      specAt (aggregate [exClusterA, exClusterACanary]) "canary" "cluster-a" =
        some exSpecB ∧
      specAt (aggregate [exClusterA, exClusterACanary]) "canary" "cluster-b" = none ∧
      (aggregate [exClusterA, exClusterACanary] "other").isSome = false) := by
  have hkeys : ∀ c, (specAt (aggregate l) f c).isSome = true ↔
      ∃ s ∈ l, (getClusterAndFlavor s).2 = f ∧ (getClusterAndFlavor s).1 = c := by
    intro c
    have := specAt_isSome_foldl l (fun _ => none) f c
    simpa [aggregate, pairOf, specAt, Prod.ext_iff] using this
  have hvalue : ∀ c sp, specAt (aggregate l) f c = some sp →
      ∃ s ∈ l, (getClusterAndFlavor s).2 = f ∧ (getClusterAndFlavor s).1 = c ∧
        s.Spec = sp := by
    intro c sp h
    rcases specAt_foldl_value l (fun _ => none) f c sp h with h0 | ⟨s, hs, hp, hsp⟩
    · simp [specAt] at h0
    · simp only [pairOf, Prod.mk.injEq] at hp
      exact ⟨s, hs, hp.1, hp.2, hsp⟩
  refine ⟨?_, ?_, hkeys, hvalue, ?_, by decide, by decide, by decide, by decide, by decide,
    by decide⟩
  · have := isSome_foldl l (fun _ => none) f
    simpa [aggregate, pairOf] using this
  · intro o
    have := ownersOf_foldl l (fun _ => none) f o
    simpa [aggregate, pairOf, ownersOf] using this
  · intro s hs hf huniq
    have hsome := (hkeys (getClusterAndFlavor s).1).mpr ⟨s, hs, hf, rfl⟩
    obtain ⟨sp, hsp⟩ := Option.isSome_iff_exists.mp hsome
    obtain ⟨s', hs', hf', hc', hspec⟩ := hvalue _ sp hsp
    rw [hsp, ← hspec, huniq s' hs' (Prod.ext (hc') (hf'.trans hf.symm))]

/-- Witness for C14: in the snapshot of `cluster-a` and `cluster-a.canary` the spec
stored under `canary` is the one of `cluster-a.canary`. -/
theorem aggregate_by_flavor_witness :
    specAt (aggregate [exClusterA, exClusterACanary]) "canary"
      (getClusterAndFlavor exClusterACanary).1 = some exClusterACanary.Spec :=
  (aggregate_by_flavor [exClusterA, exClusterACanary] "canary").2.2.2.2.1 exClusterACanary
    (by decide) (by decide) (by decide)

theorem charsLe_total (a b : List Char) : charsLe a b = true ∨ charsLe b a = true := by
  induction a generalizing b with
  | nil => left; cases b <;> rfl
  | cons x a ih =>
    cases b with
    | nil => right; rfl
    | cons y b =>
      unfold charsLe
      rcases lt_trichotomy x y with h | h | h
      · left; simp [h]
      · subst h; simpa using ih b
      · right; simp [h]

theorem charsLe_trans (a b c : List Char) (h1 : charsLe a b = true) (h2 : charsLe b c = true) :
    charsLe a c = true := by
  induction a generalizing b c with
  | nil => cases c <;> rfl
  | cons x a ih =>
    cases b with
    | nil => simp [charsLe] at h1
    | cons y b =>
      cases c with
      | nil => simp [charsLe] at h2
      | cons z c =>
        unfold charsLe at h1 h2 ⊢
        rcases lt_trichotomy x y with hxy | hxy | hxy
        · rcases lt_trichotomy y z with hyz | hyz | hyz
          · simp [lt_trans hxy hyz]
          · subst hyz; simp [hxy]
          · simp [hyz, not_lt_of_gt hyz] at h2
        · subst hxy
          rcases lt_trichotomy x z with hxz | hxz | hxz
          · simp [hxz]
          · subst hxz
            simp only [lt_self_iff_false, if_false] at h1 h2 ⊢
            exact ih b c h1 h2
          · simp [hxz, not_lt_of_gt hxz] at h2
        · simp [hxy, not_lt_of_gt hxy] at h1

theorem charsLe_antisymm (a b : List Char) (h1 : charsLe a b = true) (h2 : charsLe b a = true) :
    a = b := by
  induction a generalizing b with
  | nil =>
    cases b with
    | nil => rfl
    | cons y b => simp [charsLe] at h2
  | cons x a ih =>
    cases b with
    | nil => simp [charsLe] at h1
    | cons y b =>
      unfold charsLe at h1 h2
      rcases lt_trichotomy x y with hxy | hxy | hxy
      · simp [hxy, not_lt_of_gt hxy] at h2
      · subst hxy
        simp only [lt_self_iff_false, if_false] at h1 h2
        rw [ih b h1 h2]
      · simp [hxy, not_lt_of_gt hxy] at h1

theorem resourceName_known (k : String) :
    (resourceNameSingToSous.lookup k).isNone = true ↔ k ∉ ["cpus", "memoryMb", "numPorts"] := by
  unfold resourceNameSingToSous
  by_cases h1 : k = "cpus"
  · subst h1; simp [List.lookup]
  · by_cases h2 : k = "numPorts"
    · subst h2; simp [List.lookup]
    · by_cases h3 : k = "memoryMb"
      · subst h3; simp [List.lookup]
      · have e1 : (k == "cpus") = false := by simp [h1]
        have e2 : (k == "numPorts") = false := by simp [h2]
        have e3 : (k == "memoryMb") = false := by simp [h3]
        simp [List.lookup, h1, h2, h3, e1, e2, e3]

theorem sortStrings_filter (rangeOrder : List String) (p : String → Bool)
    (hp : rangeOrder.Perm (resourceNameSingToSous.map Prod.fst)) :
    sortStrings (rangeOrder.filter p) = ["cpus", "memoryMb", "numPorts"].filter p := by
  haveI : IsTotal String strLe := ⟨fun a b => charsLe_total a.data b.data⟩
  haveI : IsTrans String strLe := ⟨fun a b c => charsLe_trans a.data b.data c.data⟩
  haveI : IsAntisymm String strLe :=
    ⟨fun a b h1 h2 => String.ext (charsLe_antisymm a.data b.data h1 h2)⟩
  have hcanon : (resourceNameSingToSous.map Prod.fst).Perm ["cpus", "memoryMb", "numPorts"] :=
    List.Perm.cons _ (List.Perm.swap _ _ _)
  have hsorted : List.Sorted strLe ["cpus", "memoryMb", "numPorts"] := by
    unfold List.Sorted
    decide
  refine List.eq_of_perm_of_sorted ?_ (List.sorted_insertionSort strLe _) (hsorted.filter p)
  exact (List.perm_insertionSort strLe _).trans ((hp.trans hcanon).filter p)


theorem validateResources_invalid (rangeOrder : List String) (v : SingularityJSON)
    (h : ∃ k ∈ v.Resources.map Prod.fst, k ∉ ["cpus", "memoryMb", "numPorts"]) :
    ∃ k ∈ v.Resources.map Prod.fst, k ∉ ["cpus", "memoryMb", "numPorts"] ∧
      validateResources rangeOrder v = some (.invalidResourceName k) := by
  unfold validateResources
  cases hfind : (v.Resources.map Prod.fst).find?
      (fun k => (resourceNameSingToSous.lookup k).isNone) with
  | none =>
    obtain ⟨k, hk, hbad⟩ := h
    have := List.find?_eq_none.mp hfind k hk
    exact absurd ((resourceName_known k).mpr hbad) this
  | some k =>
    refine ⟨k, List.mem_of_find?_eq_some hfind, ?_, rfl⟩
    exact (resourceName_known k).mp (by simpa using List.find?_some hfind)

theorem validateResources_valid (rangeOrder : List String) (v : SingularityJSON)
    (hp : rangeOrder.Perm (resourceNameSingToSous.map Prod.fst))
    (h : ∀ k ∈ v.Resources.map Prod.fst, k ∈ ["cpus", "memoryMb", "numPorts"]) :
    validateResources rangeOrder v =
      if ["cpus", "memoryMb", "numPorts"].filter
          (fun k => !(v.Resources.map Prod.fst).contains k) = [] then none
      else some (.missingResources (["cpus", "memoryMb", "numPorts"].filter
          (fun k => !(v.Resources.map Prod.fst).contains k))) := by
  have hfind : (v.Resources.map Prod.fst).find?
      (fun k => (resourceNameSingToSous.lookup k).isNone) = none := by
    rw [List.find?_eq_none]
    intro k hk hbad
    exact (resourceName_known k).mp hbad (h k hk)
  have hsort := sortStrings_filter rangeOrder
    (fun k => !(v.Resources.map Prod.fst).contains k) hp
  have hlen : (rangeOrder.filter (fun k => !(v.Resources.map Prod.fst).contains k)).length =
      (["cpus", "memoryMb", "numPorts"].filter
        (fun k => !(v.Resources.map Prod.fst).contains k)).length := by
    rw [← hsort]
    exact ((List.perm_insertionSort strLe _).length_eq).symm
  unfold validateResources
  simp only [hfind]
  rw [hsort, hlen]
  by_cases he : ["cpus", "memoryMb", "numPorts"].filter
      (fun k => !(v.Resources.map Prod.fst).contains k) = []
  · rw [if_pos he, he]
    rfl
  · have hne : (["cpus", "memoryMb", "numPorts"].filter
        (fun k => !(v.Resources.map Prod.fst).contains k)).length ≠ 0 := by
      rwa [Ne, List.length_eq_zero]
    rw [if_neg he, if_pos]
    exact bne_iff_ne.mpr hne

/-- C16: `validateResources` returns nil exactly when the key set of `Resources` is
cpus, memoryMb, numPorts; with a key outside the set it returns an invalid-name error
for such a key; with no invalid key and some of the three absent it returns the
missing-resources error that names every absent one in sorted order. -/
theorem validateResources_exact_keys (rangeOrder : List String) (v : SingularityJSON)
    (hp : rangeOrder.Perm (resourceNameSingToSous.map Prod.fst)) :
    (validateResources rangeOrder v = none ↔
      ∀ k, k ∈ v.Resources.map Prod.fst ↔ k ∈ ["cpus", "memoryMb", "numPorts"]) ∧
    ((∃ k ∈ v.Resources.map Prod.fst, k ∉ ["cpus", "memoryMb", "numPorts"]) →
      ∃ k ∈ v.Resources.map Prod.fst, k ∉ ["cpus", "memoryMb", "numPorts"] ∧
        validateResources rangeOrder v = some (.invalidResourceName k)) ∧
    ((∀ k ∈ v.Resources.map Prod.fst, k ∈ ["cpus", "memoryMb", "numPorts"]) →
      (∃ k ∈ ["cpus", "memoryMb", "numPorts"], k ∉ v.Resources.map Prod.fst) →
      validateResources rangeOrder v =
        some (.missingResources (["cpus", "memoryMb", "numPorts"].filter
          (fun k => k ∉ v.Resources.map Prod.fst)))) := by
  have hfilter : ["cpus", "memoryMb", "numPorts"].filter
      (fun k => !(v.Resources.map Prod.fst).contains k) =
      ["cpus", "memoryMb", "numPorts"].filter (fun k => k ∉ v.Resources.map Prod.fst) := by
    apply List.filter_congr
    intro k _
    simp
  have hempty : ["cpus", "memoryMb", "numPorts"].filter
      (fun k => k ∉ v.Resources.map Prod.fst) = [] ↔
      ∀ k ∈ ["cpus", "memoryMb", "numPorts"], k ∈ v.Resources.map Prod.fst := by
    rw [List.filter_eq_nil_iff]
    simp
  refine ⟨?_, validateResources_invalid rangeOrder v, ?_⟩
  · by_cases hv : ∀ k ∈ v.Resources.map Prod.fst, k ∈ ["cpus", "memoryMb", "numPorts"]
    · rw [validateResources_valid rangeOrder v hp hv, hfilter]
      constructor
      · intro hnone k
        refine ⟨hv k, fun hk => ?_⟩
        by_cases he : ["cpus", "memoryMb", "numPorts"].filter
            (fun k => k ∉ v.Resources.map Prod.fst) = []
        · exact hempty.mp he k hk
        · rw [if_neg he] at hnone
          exact absurd hnone (by simp)
      · intro hall
        rw [if_pos (hempty.mpr fun k hk => (hall k).mpr hk)]
    · constructor
      · intro hnone
        obtain ⟨k, _, _, hk⟩ := validateResources_invalid rangeOrder v
          (by simpa using hv)
        rw [hk] at hnone
        exact absurd hnone (by simp)
      · intro hall
        exact absurd (fun k hk => (hall k).mp hk) hv
  · intro hv hmiss
    rw [validateResources_valid rangeOrder v hp hv, hfilter, if_neg]
    intro he
    obtain ⟨k, hk, hnot⟩ := hmiss
    exact hnot (hempty.mp he k hk)

/-- Witness for C16: only `cpus` given, visited in the order numPorts, cpus, memoryMb. -/
theorem validateResources_exact_keys_witness :
    validateResources ["numPorts", "cpus", "memoryMb"] ⟨[("cpus", Sous.Float64.nan)], none⟩ =
      some (.missingResources (["cpus", "memoryMb", "numPorts"].filter
        (fun k => k ∉ [("cpus", Sous.Float64.nan)].map Prod.fst))) :=
  (validateResources_exact_keys ["numPorts", "cpus", "memoryMb"]
    ⟨[("cpus", Sous.Float64.nan)], none⟩
    (List.Perm.swap _ _ _)).2.2
    (by decide) (by decide)

end Otpl

/-! ## Claims on the failure paths of the builder -/

namespace Sous

/-- C17: when the scheduler response has no deploy state, or a deploy state with
neither a pending nor an active marker, `retrieveDeploy` returns an error without
calling `GetDeploy`, and `completeConstruction` returns that error passed through
`canRetry`, also without any remote call. -/
theorem retrieveDeploy_no_marker (X : Externals) (s : State) (rp : SingularityRequestParent)
    (hrp : s.uc.req.reqParent = some rp)
    (h : rp.RequestDeployState = none ∨
      ∃ rds, rp.RequestDeployState = some rds ∧ rds.PendingDeploy = none ∧
        rds.ActiveDeploy = none) :
    ∃ msg,
      (msg = "Singularity response didn't include a deploy state" ∨
        msg = "Singularity deploy state included no dep markers") ∧
      (retrieveDeploy X s).error = some (.errorf msg) ∧
      (retrieveDeploy X s).state.calls = s.calls ∧
      (completeConstruction X s).error = some (canRetry s.uc (.errorf msg)) ∧
      (completeConstruction X s).state.calls = s.calls := by
  have hrp' : (constructionStart s rp).uc.req.reqParent = some rp := hrp
  rcases h with h | ⟨rds, h, hp, ha⟩
  · refine ⟨_, Or.inl rfl, ?_⟩
    rw [completeConstruction_eq X s rp hrp, retrieveDeploy_eq, retrieveDeploy_eq]
    simp only [hrp, hrp', h]
    refine ⟨rfl, rfl, ?_, rfl⟩
    simp only [andThen, Outcome.error]
    exact congrArg some (canRetry_congr _ s.uc _ rfl)
  · refine ⟨_, Or.inr rfl, ?_⟩
    rw [completeConstruction_eq X s rp hrp, retrieveDeploy_eq, retrieveDeploy_eq]
    simp only [hrp, hrp', h, selectedMarker, hp, ha]
    refine ⟨rfl, rfl, ?_, rfl⟩
    simp only [andThen, Outcome.error]
    exact congrArg some (canRetry_congr _ s.uc _ rfl)

/-- Witness for C17: the candidate without a deploy state. -/
theorem retrieveDeploy_no_marker_witness :
    ∃ msg,
      (msg = "Singularity response didn't include a deploy state" ∨
        msg = "Singularity deploy state included no dep markers") ∧
      (retrieveDeploy exExternals exNoDeployState).error = some (.errorf msg) ∧
      (retrieveDeploy exExternals exNoDeployState).state.calls = exNoDeployState.calls ∧
      (completeConstruction exExternals exNoDeployState).error =
        some (canRetry exNoDeployState.uc (.errorf msg)) ∧
      (completeConstruction exExternals exNoDeployState).state.calls =
        exNoDeployState.calls :=
  retrieveDeploy_no_marker exExternals exNoDeployState
    { exParent with RequestDeployState := none } rfl (Or.inl rfl)

/-- C18, at the failing input: for a fetched deploy without container info
`retrieveImageLabels` panics on `ci.Type` instead of returning an error; for a Docker
deploy without docker details it returns the error and makes no call. -/
theorem retrieveImageLabels_nil_container_info :
    retrieveImageLabels exExternals exNoContainerState = .panic exNoContainerState ∧
    retrieveImageLabels exExternals exNoDockerState =
      .ret exNoDockerState
        (some (.errorf "Singularity deploy didn't include a docker info")) := by
  refine ⟨by rfl, by rfl⟩

/-- C19, refuted as stated: for a candidate without a request id `canRetry` returns the
bare cause, which is no `canRetryRequest` and whose text does not contain the identity
string `http://sing:`. -/
theorem canRetry_identity_counterexample :
    canRetry exNoIdState.uc (.errorf "boom") = .errorf "boom" ∧
    (canRetry exNoIdState.uc (.errorf "boom")).isCanRetryRequest = false ∧
    (canRetry exNoIdState.uc (.errorf "boom")).Error = some "boom" ∧
    canRetryRequest.name exNoIdState.uc.req = some "http://sing:" ∧
    ¬ ("http://sing:".data <:+: "boom".data) := by
  refine ⟨by rfl, by rfl, by rfl, by rfl, by decide⟩

/-- C19, amended: for a candidate with a complete identity triple `canRetry` returns a
`canRetryRequest` that carries the cause and the candidate, whose `name()` is the
`sourceUrl`, a colon and the request id, and whose `Error()` is the cause's message
followed by ": " and `name()`; for every other candidate `canRetry` returns the cause
itself, with no classification or identity attached. -/
theorem canRetry_exposes_identity (uc : deploymentBuilder) (cause : GoError) :
    (∀ rp r, uc.req.reqParent = some rp → rp.Request = some r →
      uc.req.sourceUrl ≠ "" → r.Id ≠ "" →
        canRetry uc cause = .canRetryRequest cause uc.req ∧
        canRetryRequest.name uc.req = some (uc.req.sourceUrl ++ ":" ++ r.Id) ∧
        ∀ msg, cause.Error = some msg →
          (canRetry uc cause).Error =
            some (msg ++ ": " ++ (uc.req.sourceUrl ++ ":" ++ r.Id))) ∧
    (¬ IdentityComplete uc.req → canRetry uc cause = cause) := by
  refine ⟨?_, canRetry_incomplete uc cause⟩
  intro rp r hrp hr hs hid
  have hc : canRetry uc cause = .canRetryRequest cause uc.req :=
    canRetry_complete uc cause ⟨hs, rp, r, hrp, hr, hid⟩
  have hn : canRetryRequest.name uc.req = some (uc.req.sourceUrl ++ ":" ++ r.Id) := by
    simp [canRetryRequest.name, hrp, hr]
  refine ⟨hc, hn, ?_⟩
  intro msg hmsg
  rw [hc, GoError.Error, hn, hmsg]

/-- Witness for C19 (amended): the candidate `exState` and the cause `boom`. -/
theorem canRetry_exposes_identity_witness :
    canRetry exState.uc (.errorf "boom") = .canRetryRequest (.errorf "boom") exState.uc.req ∧
    canRetryRequest.name exState.uc.req = some ("http://sing" ++ ":" ++ "req1") ∧
    ∀ msg, (GoError.errorf "boom").Error = some msg →
      (canRetry exState.uc (.errorf "boom")).Error =
        some (msg ++ ": " ++ ("http://sing" ++ ":" ++ "req1")) :=
  (canRetry_exposes_identity exState.uc (.errorf "boom")).1 exParent exRequest rfl rfl
    (by decide) (by decide)

theorem foldl_ownerSet_add (owners : List String) (os : Finset String) :
    owners.foldl OwnerSet.Add os = os ∪ owners.toFinset := by
  induction owners generalizing os with
  | nil => simp
  | cons o rest ih =>
    rw [List.foldl_cons, ih]
    ext x
    simp only [OwnerSet.Add, Finset.mem_union, Finset.mem_insert, List.mem_toFinset,
      List.mem_cons]
    tauto

/-- C20, at the failing input: for a request that declares no owners
`completeConstruction` returns nil and leaves `target.Owners` nil, whereas
`BuildDeployment` always returns the (non-nil) set of the manifest's owners. -/
theorem completeConstruction_nil_owners :
    (completeConstruction exExternals exNoOwnersState).error = none ∧
    (∃ s', completeConstruction exExternals exNoOwnersState = .ret s' none ∧
      s'.uc.target.Owners = none) ∧
    (∀ (sourceVersion : SourceLocation → Version → SourceVersion) (m : Manifest)
        (spec : PartialDeploySpec),
      (BuildDeployment sourceVersion m spec).1.Owners = some m.Owners.toFinset) := by
  refine ⟨by rfl, ⟨_, rfl, rfl⟩, ?_⟩
  intro sv m spec
  simp [BuildDeployment, foldl_ownerSet_add]

end Sous

/-! ## Claims on the equality of owner sets and deployments -/

namespace Sous

theorem OwnerSet.len_eq_card (os : Option (Finset String)) :
    OwnerSet.len os = (OwnerSet.keys os).card := by
  cases os <;> rfl

theorem OwnerSet.has_eq_mem (o : Option (Finset String)) (ownr : String) :
    OwnerSet.has o ownr = decide (ownr ∈ OwnerSet.keys o) := by
  cases o <;> simp [OwnerSet.has, OwnerSet.keys]

theorem OwnerSet.keys_eq_iff (a b : Option (Finset String)) :
    ((OwnerSet.len a = OwnerSet.len b) ∧
        ¬ ∃ ownr ∈ OwnerSet.keys a, OwnerSet.has b ownr = false) ↔
      OwnerSet.keys a = OwnerSet.keys b := by
  simp only [OwnerSet.len_eq_card, OwnerSet.has_eq_mem, decide_eq_false_iff_not, not_exists,
    not_and, not_not]
  constructor
  · rintro ⟨hcard, hsub⟩
    exact Finset.eq_of_subset_of_card_le hsub (le_of_eq hcard.symm)
  · intro h
    rw [h]
    exact ⟨rfl, fun _ hk => hk⟩

theorem OwnerSet.Equal_iff_keys (a b : Option (Finset String)) :
    OwnerSet.Equal a b = true ↔ OwnerSet.keys a = OwnerSet.keys b := by
  rw [← OwnerSet.keys_eq_iff]
  unfold OwnerSet.Equal
  by_cases hl : OwnerSet.len a = OwnerSet.len b
  · by_cases hk : ∃ ownr ∈ OwnerSet.keys a, OwnerSet.has b ownr = false
    · simp [hl, hk]
    · simp [hl, hk]
  · simp [hl]

/-- C21: `OwnerSet.Equal` is set equality: it is true exactly when the two owner sets
contain the same owners (a nil set containing none); hence it is reflexive, symmetric
and transitive. -/
theorem OwnerSet_Equal_is_set_equality (a b : Option (Finset String)) :
    (OwnerSet.Equal a b = true ↔ ∀ ownr, OwnerSet.has a ownr = OwnerSet.has b ownr) ∧
    (OwnerSet.Equal a b = true ↔ OwnerSet.keys a = OwnerSet.keys b) ∧
    OwnerSet.Equal a a = true ∧
    OwnerSet.Equal a b = OwnerSet.Equal b a ∧
    (∀ c, OwnerSet.Equal a b = true → OwnerSet.Equal b c = true →
      OwnerSet.Equal a c = true) := by
  refine ⟨?_, OwnerSet.Equal_iff_keys a b, (OwnerSet.Equal_iff_keys a a).mpr rfl, ?_, ?_⟩
  · rw [OwnerSet.Equal_iff_keys]
    simp only [OwnerSet.has_eq_mem, decide_eq_decide]
    exact Finset.ext_iff
  · rw [Bool.eq_iff_iff, OwnerSet.Equal_iff_keys, OwnerSet.Equal_iff_keys]
    exact eq_comm
  · intro c hab hbc
    rw [OwnerSet.Equal_iff_keys] at hab hbc ⊢
    exact hab.trans hbc

/-- Instances of C21: nil equals the empty set, and order and duplicates do not matter. -/
theorem OwnerSet_Equal_is_set_equality_witness :
    OwnerSet.Equal none (some ∅) = true ∧
    OwnerSet.Equal (some {"alice", "bob"}) (some {"bob", "alice", "bob"}) = true ∧
    OwnerSet.Equal (some {"alice"}) (some {"bob"}) = false :=
  ⟨(OwnerSet_Equal_is_set_equality none (some ∅)).2.1.mpr rfl,
    (OwnerSet_Equal_is_set_equality _ _).2.1.mpr (by decide),
    by decide⟩

end Sous

namespace Sous

theorem deployment_Equal_eq (deployConfigEqual : DeployConfig → DeployConfig → Bool)
    (d o : Deployment) :
    Deployment.Equal deployConfigEqual d o =
      (decide (d.Cluster = o.Cluster ∧ d.SourceVersion = o.SourceVersion ∧ d.Kind = o.Kind) &&
        OwnerSet.Equal d.Owners o.Owners &&
        deployConfigEqual (Deployment.DeployConfig d) (Deployment.DeployConfig o)) := by
  unfold Deployment.Equal OwnerSet.Equal
  by_cases h1 : d.Cluster = o.Cluster <;> by_cases h2 : d.SourceVersion = o.SourceVersion <;>
    by_cases h3 : d.Kind = o.Kind <;>
    by_cases h4 : OwnerSet.len d.Owners = OwnerSet.len o.Owners <;>
    by_cases h5 : ∃ ownr ∈ OwnerSet.keys d.Owners, OwnerSet.has o.Owners ownr = false <;>
    simp [h1, h2, h3, h4, h5]

/-- C22: `Deployment.Equal` does not read the `Annotation`: replacing the `Annotation` of
either deployment leaves the result unchanged, and a deployment is `Equal` to itself
with any other `Annotation` when `DeployConfig.Equal` is reflexive. -/
theorem Deployment_Equal_annotation_ignored
    (deployConfigEqual : DeployConfig → DeployConfig → Bool) (d o : Deployment)
    (a : Annotation) :
    Deployment.Equal deployConfigEqual { d with Annotation := a } o =
      Deployment.Equal deployConfigEqual d o ∧
    Deployment.Equal deployConfigEqual d { o with Annotation := a } =
      Deployment.Equal deployConfigEqual d o ∧
    ((∀ c, deployConfigEqual c c = true) →
      Deployment.Equal deployConfigEqual d { d with Annotation := a } = true) := by
  refine ⟨rfl, rfl, ?_⟩
  intro hrefl
  rw [deployment_Equal_eq]
  simp [(OwnerSet.Equal_iff_keys d.Owners d.Owners).mpr rfl, Deployment.DeployConfig, hrefl]

/-- Witness for C22: `exDeployment` with request id `req1` attached. -/
theorem Deployment_Equal_annotation_ignored_witness :
    Deployment.Equal exDeployConfigEqual exDeployment
      { exDeployment with Annotation := ⟨"req1"⟩ } = true :=
  (Deployment_Equal_annotation_ignored exDeployConfigEqual exDeployment exDeployment
    ⟨"req1"⟩).2.2 (by simp [exDeployConfigEqual])

/-- C25: the owner comparison written inline in `Deployment.Equal` computes
`OwnerSet.Equal`: for all owner sets put into deployments that otherwise agree the two
give the same result, nil and the empty set compare equal in both, and for deployments
that agree on `Cluster`, `SourceVersion`, `Kind` and `DeployConfig` the result of
`Deployment.Equal` is that of `OwnerSet.Equal` on their owners. -/
theorem Deployment_Equal_owners_refines
    (deployConfigEqual : DeployConfig → DeployConfig → Bool) (d o : Deployment) :
    (∀ a b : Option (Finset String),
      Deployment.Equal (fun _ _ => true) { d with Owners := a } { d with Owners := b } =
        OwnerSet.Equal a b) ∧
    (Deployment.Equal (fun _ _ => true) { d with Owners := none } { d with Owners := some ∅ } =
        true ∧ OwnerSet.Equal none (some ∅) = true) ∧
    (d.Cluster = o.Cluster → d.SourceVersion = o.SourceVersion → d.Kind = o.Kind →
      deployConfigEqual (Deployment.DeployConfig d) (Deployment.DeployConfig o) = true →
      Deployment.Equal deployConfigEqual d o = OwnerSet.Equal d.Owners o.Owners) := by
  have hall : ∀ a b : Option (Finset String),
      Deployment.Equal (fun _ _ => true) { d with Owners := a } { d with Owners := b } =
        OwnerSet.Equal a b := by
    intro a b
    rw [deployment_Equal_eq]
    simp
  refine ⟨hall, ⟨?_, by decide⟩, ?_⟩
  · rw [hall]
    decide
  · intro h1 h2 h3 h4
    rw [deployment_Equal_eq]
    simp [h1, h2, h3, h4]

/-- Witness for C25: `exDeployment` against itself with the owners listed in the other
order. -/
theorem Deployment_Equal_owners_refines_witness :
    Deployment.Equal exDeployConfigEqual exDeployment
        { exDeployment with Owners := some {"bob", "alice"} } =
      OwnerSet.Equal exDeployment.Owners (some {"bob", "alice"}) :=
  (Deployment_Equal_owners_refines exDeployConfigEqual exDeployment
    { exDeployment with Owners := some {"bob", "alice"} }).2.2 rfl rfl rfl (by decide)

end Sous

/-! ## Claims on the order of the builder steps -/

namespace Sous

/-- C23, at the failing inputs: for a candidate whose parent-request handle is nil
`completeConstruction` panics on `uc.req.reqParent.Request` and returns no error, although
`canRetry` guards against the nil handle; for a candidate whose parent has a nil request it
panics in `unpackDeployConfig` once the deploy and the labels were fetched, and returns
the fatal error of a step that fails before. -/
theorem completeConstruction_nil_parent :
    exNilParentState.uc.req.reqParent = none ∧
    (∃ s, completeConstruction exExternals exNilParentState = .panic s) ∧
    (completeConstruction exExternals exNilParentState).error = none ∧
    canRetry exNilParentState.uc (.errorf "boom") = .errorf "boom" ∧
    (∃ s, completeConstruction exExternals exNilRequestState = .panic s) ∧
    (completeConstruction exFailingExternals exNilRequestState).error =
      some (.foreign "503") :=
  ⟨rfl, ⟨_, rfl⟩, rfl, rfl, ⟨_, rfl⟩, rfl⟩

theorem retrieveDeploy_calls (X : Externals) (s : State) (img : String)
    (h : Call.labelsForImageName img ∈ (retrieveDeploy X s).state.calls) :
    Call.labelsForImageName img ∈ s.calls := by
  rw [retrieveDeploy_eq] at h
  repeat' split at h
  all_goals simpa [Outcome.state] using h

theorem retrieveImageLabels_target (X : Externals) (s : State) :
    (retrieveImageLabels X s).state.uc.target =
      { s.uc.target with
        SourceVersion := (retrieveImageLabels X s).state.uc.target.SourceVersion } := by
  rw [retrieveImageLabels_eq]
  repeat' split
  all_goals simp [Outcome.state]

theorem unpackDeployConfig_cluster (s : State) :
    (unpackDeployConfig s).state.uc.target.Cluster = s.uc.target.Cluster := by
  rw [unpackDeployConfig_eq]
  repeat' split
  all_goals simp [Outcome.state]

theorem determineManifestKind_cluster (s : State) :
    (determineManifestKind s).state.uc.target.Cluster = s.uc.target.Cluster := by
  unfold determineManifestKind
  repeat' split
  all_goals simp [Outcome.state]

theorem andThen_cluster (c : String) (step : Outcome) (next : State → Outcome)
    (h1 : step.state.uc.target.Cluster = c)
    (h2 : ∀ s, s.uc.target.Cluster = c → (next s).state.uc.target.Cluster = c) :
    (andThen step next).state.uc.target.Cluster = c := by
  cases step with
  | panic s => exact h1
  | ret s e =>
    cases e with
    | some e => exact h1
    | none => exact h2 s h1

theorem completeConstruction_cluster (X : Externals) (s : State) :
    (completeConstruction X s).state.uc.target.Cluster = s.uc.req.sourceUrl := by
  cases hrp : s.uc.req.reqParent with
  | none => simp [completeConstruction, hrp, Outcome.state]
  | some rp =>
    rw [completeConstruction_eq X s rp hrp]
    refine andThen_cluster _ _ _ ?_ fun s1 h1 => ?_
    · rw [(retrieveDeploy_frame X _).2.2]
      rfl
    refine andThen_cluster _ _ _ ?_ fun s2 h2 => ?_
    · rw [retrieveImageLabels_target]
      exact h1
    refine andThen_cluster _ _ _ ?_ fun s3 h3 => ?_
    · rw [unpackDeployConfig_cluster]
      exact h2
    refine andThen_cluster _ _ _ ?_ fun s4 h4 => h4
    rw [determineManifestKind_cluster]
    exact h3

/-- C24: `completeConstruction` runs its steps in order and fails fast. For a fresh
builder: when `retrieveDeploy` fails, its error is returned through `canRetry`, the
image-metadata client was not called and the target is the zero `Deployment` with only
`Cluster` set; when `retrieveImageLabels` fails, its error is returned through
`canRetry` and `Resources`, `Env`, `NumInstances`, `Owners` and `Kind` are still unset;
in every case `target.Cluster` is the candidate's source identifier. -/
theorem completeConstruction_fail_fast (X : Externals) (req : singReq) :
    (∀ rp s1 e, req.reqParent = some rp →
      retrieveDeploy X (constructionStart ⟨newDeploymentBuilder req, []⟩ rp) =
        .ret s1 (some e) →
      completeConstruction X ⟨newDeploymentBuilder req, []⟩ =
          .ret s1 (some (canRetry (newDeploymentBuilder req) e)) ∧
        (∀ img, Call.labelsForImageName img ∉ s1.calls) ∧
        s1.uc.target = { Deployment.zero with Cluster := req.sourceUrl }) ∧
    (∀ rp s1 s2 e, req.reqParent = some rp →
      retrieveDeploy X (constructionStart ⟨newDeploymentBuilder req, []⟩ rp) = .ret s1 none →
      retrieveImageLabels X s1 = .ret s2 (some e) →
      completeConstruction X ⟨newDeploymentBuilder req, []⟩ =
          .ret s2 (some (canRetry (newDeploymentBuilder req) e)) ∧
        s2.uc.target = { Deployment.zero with
          Cluster := req.sourceUrl, SourceVersion := s2.uc.target.SourceVersion }) ∧
    (completeConstruction X ⟨newDeploymentBuilder req, []⟩).state.uc.target.Cluster =
      req.sourceUrl := by
  refine ⟨?_, ?_, completeConstruction_cluster X ⟨newDeploymentBuilder req, []⟩⟩
  · intro rp s1 e hrp h1
    have hframe := retrieveDeploy_frame X (constructionStart ⟨newDeploymentBuilder req, []⟩ rp)
    have hcalls := retrieveDeploy_calls X (constructionStart ⟨newDeploymentBuilder req, []⟩ rp)
    rw [h1] at hframe hcalls
    simp only [Outcome.state] at hframe hcalls
    refine ⟨?_, ?_, ?_⟩
    · rw [completeConstruction_eq X _ rp hrp, h1]
      simp only [andThen]
      rw [canRetry_congr _ (newDeploymentBuilder req) _ hframe.1]
    · intro img himg
      have := hcalls img himg
      simp [constructionStart] at this
    · rw [hframe.2.2]
      rfl
  · intro rp s1 s2 e hrp h1 h2
    have hframe := retrieveDeploy_frame X (constructionStart ⟨newDeploymentBuilder req, []⟩ rp)
    rw [h1] at hframe
    simp only [Outcome.state] at hframe
    have hframe2 := retrieveImageLabels_frame X s1
    have htarget := retrieveImageLabels_target X s1
    rw [h2] at hframe2 htarget
    simp only [Outcome.state] at hframe2 htarget
    refine ⟨?_, ?_⟩
    · rw [completeConstruction_eq X _ rp hrp, h1]
      simp only [andThen, h2]
      rw [canRetry_congr _ (newDeploymentBuilder req) _ (hframe2.1.trans hframe.1)]
    · rw [htarget, hframe.2.2]
      rfl

/-- Witness for C24: the scheduler fails for the candidate of `exState`. -/
theorem completeConstruction_fail_fast_witness :
    completeConstruction exFailingExternals ⟨newDeploymentBuilder exState.uc.req, []⟩ =
        .ret (retrieveDeploy exFailingExternals
            (constructionStart ⟨newDeploymentBuilder exState.uc.req, []⟩ exParent)).state
          (some (canRetry (newDeploymentBuilder exState.uc.req) (.foreign "503"))) ∧
      (∀ img, Call.labelsForImageName img ∉
        (retrieveDeploy exFailingExternals
          (constructionStart ⟨newDeploymentBuilder exState.uc.req, []⟩ exParent)).state.calls) ∧
      (retrieveDeploy exFailingExternals
          (constructionStart ⟨newDeploymentBuilder exState.uc.req, []⟩ exParent)).state.uc.target =
        { Deployment.zero with Cluster := exState.uc.req.sourceUrl } :=
  (completeConstruction_fail_fast exFailingExternals exState.uc.req).1 exParent _
    (.foreign "503") rfl rfl

end Sous
